import Mathlib

/-!
Shallow embedding of hyperbuilder's namespace/schema/collection model
(`src/index.js`).  JS objects live in explicit stores indexed by allocation
order, so object identity is the store index; declaration callbacks are
deep-embedded as lists of builder operations.
-/

structure SchemaField where
  name : String
  type : String
  required : Bool
deriving DecidableEq, Repr

/-- `SchemaField.optional()`: clears `required` and returns the field. -/
def SchemaField.optional (f : SchemaField) : SchemaField :=
  { f with required := false }

structure SchemaObj where
  nsId : Nat
  name : String
  compact : Bool
  fields : List SchemaField
deriving DecidableEq, Repr

instance : Inhabited SchemaObj := ⟨⟨0, "", false, []⟩⟩

structure CollectionObj where
  schemaId : Nat
  name : String
  indexes : List Nat
  key : List String
deriving DecidableEq, Repr

instance : Inhabited CollectionObj := ⟨⟨0, "", [], []⟩⟩

structure DispatchObj where
  name : String
  requestType : String
deriving DecidableEq, Repr

structure NamespaceObj where
  name : String
  schemas : List Nat
  collections : List Nat
  dispatches : List DispatchObj
deriving DecidableEq, Repr

instance : Inhabited NamespaceObj := ⟨⟨"", [], [], []⟩⟩

/-- The whole mutable state of one `Builder` (registry): the three object
stores (allocation-ordered) plus the insertion-ordered namespace map. -/
structure BState where
  schemaStore : List SchemaObj
  collectionStore : List CollectionObj
  nsStore : List NamespaceObj
  nsMap : List (String × Nat)
deriving DecidableEq, Repr

/-- JS `String.prototype.split("/")` on the character list: splits at every
separator and keeps empty pieces (`"" → [""]`, `"a//b" → ["a","","b"]`). -/
def splitCharsSlash : List Char → List (List Char)
  | [] => [[]]
  | c :: cs =>
      let r := splitCharsSlash cs
      if c = '/' then [] :: r else (c :: r.headD []) :: r.tail

/-- JS `name.split("/")`. -/
def splitSlash (s : String) : List String :=
  (splitCharsSlash s.data).map (fun cs => ⟨cs⟩)

/-- JS `parts.join("/")`. -/
def joinSlash : List String → String
  | [] => ""
  | [s] => s
  | s :: rest => s ++ "/" ++ joinSlash rest

/-- JS `s.startsWith("@")`. -/
def headIsAtSign (s : String) : Bool :=
  match s.data with
  | c :: _ => c = '@'
  | [] => false

/-- JS `s.substring(1)` for strings of whole characters. -/
def dropFirstChar (s : String) : String := ⟨s.data.drop 1⟩

/-- JS `Map.prototype.get` over the insertion-ordered entry list. -/
def lookupStr (k : String) : List (String × Nat) → Option Nat
  | [] => none
  | (k2, v) :: rest => if k = k2 then some v else lookupStr k rest

def BState.getSchema (st : BState) (sid : Nat) : SchemaObj :=
  st.schemaStore.getD sid default

def BState.getColl (st : BState) (cid : Nat) : CollectionObj :=
  st.collectionStore.getD cid default

def BState.getNs (st : BState) (nsId : Nat) : NamespaceObj :=
  st.nsStore.getD nsId default

def updateSchema (sid : Nat) (f : SchemaObj → SchemaObj) (st : BState) : BState :=
  { st with schemaStore := st.schemaStore.set sid (f (st.getSchema sid)) }

def updateNs (nsId : Nat) (f : NamespaceObj → NamespaceObj) (st : BState) : BState :=
  { st with nsStore := st.nsStore.set nsId (f (st.getNs nsId)) }

def updateColl (cid : Nat) (f : CollectionObj → CollectionObj) (st : BState) : BState :=
  { st with collectionStore := st.collectionStore.set cid (f (st.getColl cid)) }

/-- `this.fields.push(field)`. -/
def appendField (sid : Nat) (fld : SchemaField) (st : BState) : BState :=
  updateSchema sid (fun s => { s with fields := s.fields ++ [fld] }) st

/-- The `Schema` constructor: allocates the object (with `compact = false` and
no fields) and pushes it onto `namespace.schemas` as a side effect. -/
def allocSchema (nsId : Nat) (name : String) (st : BState) : BState × Nat :=
  let sid := st.schemaStore.length
  (updateNs nsId (fun ns => { ns with schemas := ns.schemas ++ [sid] })
    { st with
        schemaStore :=
          st.schemaStore ++ [{ nsId := nsId, name := name, compact := false, fields := [] }] },
   sid)

/-- The `fqn` getter: `` `@${this.namespace.name}/${this.name}` ``. -/
def fqnOf (st : BState) (sid : Nat) : String :=
  "@" ++ (st.getNs (st.getSchema sid).nsId).name ++ "/" ++ (st.getSchema sid).name

mutual
/-- One call made by a declaration callback on its schema-builder surface:
a generated type method (optionally followed by `.optional()`), or `struct`
with a string reference, or `struct` with a nested callback. -/
inductive SchemaOp where
  | typeField (tag fieldName : String) (req : Bool)
  | structRef (fieldName ref : String) (req : Bool)
  | structInline (fieldName : String) (cb : SchemaCb) (req : Bool)

/-- The body of a declaration callback: the sequence of builder calls it
makes on the schema it receives. -/
inductive SchemaCb where
  | done
  | seq (op : SchemaOp) (rest : SchemaCb)
end

mutual
/-- One builder call on the schema `sid` (`Schema` methods, src/index.js
lines 88-94 and 106-118). -/
def runOp (sid : Nat) (op : SchemaOp) (st : BState) : BState :=
  match op with
  | SchemaOp.typeField tag n req =>
      appendField sid { name := n, type := tag, required := req } st
  | SchemaOp.structRef n ref req =>
      appendField sid { name := n, type := ref, required := req } st
  | SchemaOp.structInline n cb req =>
      let q := allocSchema (st.getSchema sid).nsId ((st.getSchema sid).name ++ "/" ++ n) st
      let st2 := runCb q.2 cb q.1
      appendField sid { name := n, type := fqnOf st2 q.2, required := req } st2

/-- Runs a callback body against the schema `sid`. -/
def runCb (sid : Nat) (cb : SchemaCb) (st : BState) : BState :=
  match cb with
  | SchemaCb.done => st
  | SchemaCb.seq op rest => runCb sid rest (runOp sid op st)
end

/-- One call on a `CollectionSchema`: either an inherited schema method or
`key(...key)`. -/
inductive CollOp where
  | schemaOp (op : SchemaOp)
  | key (names : List String)

/-- `CollectionSchema.key`: `this.collection.key = key`. -/
def setKey (cid : Nat) (names : List String) (st : BState) : BState :=
  updateColl cid (fun c => { c with key := names }) st

def runCollOps (cid sid : Nat) : List CollOp → BState → BState
  | [], st => st
  | CollOp.schemaOp op :: rest, st => runCollOps cid sid rest (runOp sid op st)
  | CollOp.key names :: rest, st => runCollOps cid sid rest (setKey cid names st)

/-- Allocation of a `Collection` object. -/
def pushCollObj (c : CollectionObj) (st : BState) : BState :=
  { st with collectionStore := st.collectionStore ++ [c] }

/-- `namespace.schemas.push(sid)`. -/
def pushNsSchema (nsId sid : Nat) (st : BState) : BState :=
  updateNs nsId (fun ns => { ns with schemas := ns.schemas ++ [sid] }) st

/-- `namespace.collections.push(cid)`. -/
def pushNsColl (nsId cid : Nat) (st : BState) : BState :=
  updateNs nsId (fun ns => { ns with collections := ns.collections ++ [cid] }) st

/-- The `Collection` constructor: builds the paired `CollectionSchema` (whose
`Schema` super-constructor already pushed it onto `namespace.schemas`), then
pushes the schema onto `namespace.schemas` again and the collection onto
`namespace.collections` (src/index.js lines 133-144). -/
def allocCollection (nsId : Nat) (name : String) (st : BState) : BState × Nat :=
  let q := allocSchema nsId name st
  let cid := q.1.collectionStore.length
  (pushNsColl nsId cid
    (pushNsSchema nsId q.2
      (pushCollObj { schemaId := q.2, name := name, indexes := [], key := [] } q.1)),
   cid)

/-- The `Dispatch` constructor: pushes onto `namespace.dispatches`. -/
def pushDispatch (nsId : Nat) (d : DispatchObj) (st : BState) : BState :=
  updateNs nsId (fun ns => { ns with dispatches := ns.dispatches ++ [d] }) st

/-- `Builder._extractNamespace` (src/index.js lines 179-195). -/
def extractNamespace (st : BState) (name : String) : BState × Nat × String :=
  let parts := splitSlash name
  if headIsAtSign (parts.headD "") then
    let nsName := dropFirstChar (parts.headD "")
    let localName := joinSlash parts.tail
    match lookupStr nsName st.nsMap with
    | some nsId => (st, nsId, localName)
    | none =>
        let nsId := st.nsStore.length
        ({ st with
             nsStore :=
               st.nsStore ++ [{ name := nsName, schemas := [], collections := [], dispatches := [] }],
             nsMap := st.nsMap ++ [(nsName, nsId)] },
         nsId, localName)
  else (st, 0, name)

/-- The namespace key a name string resolves to: `some ns` when the first
`/`-separated segment starts with `@` (that segment minus the `@`), `none`
when the default namespace is used.  Factored from `_extractNamespace`. -/
def nsKeyOf (name : String) : Option String :=
  if headIsAtSign ((splitSlash name).headD "")
  then some (dropFirstChar ((splitSlash name).headD ""))
  else none

/-- Second argument of `Builder.dispatch`: an FQN string or a callback. -/
inductive DispatchArg where
  | ref (fqn : String)
  | inline (cb : SchemaCb)

/-- One top-level declaration made through the builder surface. -/
inductive Decl where
  | schemaDecl (name : String) (cb : SchemaCb)
  | collectionDecl (name : String) (ops : List CollOp)
  | dispatchDecl (name : String) (arg : DispatchArg)

/-- `Builder.schema` (src/index.js lines 203-208). -/
def declSchema (name : String) (cb : SchemaCb) (st : BState) : BState × Nat :=
  let e := extractNamespace st name
  let q := allocSchema e.2.1 e.2.2 e.1
  (runCb q.2 cb q.1, q.2)

/-- `Builder.collection` (src/index.js lines 246-251). -/
def declCollection (name : String) (ops : List CollOp) (st : BState) : BState × Nat :=
  let e := extractNamespace st name
  let q := allocCollection e.2.1 e.2.2 e.1
  (runCollOps q.2 (q.1.getColl q.2).schemaId ops q.1, q.2)

/-- `Builder.dispatch` (src/index.js lines 225-235). -/
def declDispatch (name : String) (arg : DispatchArg) (st : BState) : BState :=
  let e := extractNamespace st name
  match arg with
  | DispatchArg.ref fqn => pushDispatch e.2.1 { name := e.2.2, requestType := fqn } e.1
  | DispatchArg.inline cb =>
      let q := allocSchema e.2.1 e.2.2 e.1
      let st2 := runCb q.2 cb q.1
      pushDispatch e.2.1 { name := e.2.2, requestType := fqnOf st2 q.2 } st2

/-- The `Builder` constructor's registry state: the default namespace exists
from the start and is keyed `"default"` in the map. -/
def initState : BState :=
  { schemaStore := [], collectionStore := [],
    nsStore := [{ name := "default", schemas := [], collections := [], dispatches := [] }],
    nsMap := [("default", 0)] }

def runDecl (d : Decl) (st : BState) : BState :=
  match d with
  | Decl.schemaDecl n cb => (declSchema n cb st).1
  | Decl.collectionDecl n ops => (declCollection n ops st).1
  | Decl.dispatchDecl n arg => declDispatch n arg st

def runDecls : List Decl → BState → BState
  | [], st => st
  | d :: ds, st => runDecls ds (runDecl d st)

/-- A callback that only invokes generated type methods, given as the list of
(type tag, field name) calls in invocation order. -/
def cbOfCalls (calls : List (String × String)) : SchemaCb :=
  calls.foldr (fun c acc => SchemaCb.seq (SchemaOp.typeField c.1 c.2 true) acc) SchemaCb.done

/-- Modelled from the spec: `src/types.js` (the `SupportedTypes` list required
on line 4 of src/index.js) is not among the sources; the tag list is
reconstructed from the `SchemaBuilder` typedef in src/index.js (lines 26-77),
which documents exactly one generated method per supported type. -/
def SupportedTypes : List String :=
  ["uint", "uint1", "uint2", "uint3", "uint4", "uint5", "uint6", "uint7", "uint8",
   "uint16", "uint24", "uint32", "uint40", "uint48", "uint56", "uint64",
   "int", "int8", "int16", "int24", "int32", "int40", "int48", "int56", "int64",
   "float32", "float64", "port", "lexint", "string", "utf8", "ascii", "hex",
   "bigint", "biguint64", "bigint64", "fixed32", "fixed64", "buffer", "date",
   "bool", "ip", "ipv4", "ipv6", "ipAddress", "ipv4Address", "ipv6Address",
   "none", "raw", "json"]

/-- Enough of a JS value model to express what a property access on a `Schema`
instance yields. -/
inductive JsValue where
  | boolV (b : Bool)
  | strV (s : String)
  | nsRefV (nsId : Nat)
  | fieldsV (fs : List SchemaField)
  | typeMethodV (tag : String)
  | structMethodV
  | compactMethodV
deriving DecidableEq, Repr

/-- The own properties a `Schema` instance carries after its constructor ran:
`this.namespace`, `this.name`, `this.compact` (a boolean), `this.fields`, and
one generated closure per supported type (src/index.js lines 80-95). -/
def schemaOwnProp (st : BState) (sid : Nat) (key : String) : Option JsValue :=
  if SupportedTypes.contains key then some (JsValue.typeMethodV key)
  else if key = "namespace" then some (JsValue.nsRefV (st.getSchema sid).nsId)
  else if key = "name" then some (JsValue.strV (st.getSchema sid).name)
  else if key = "compact" then some (JsValue.boolV (st.getSchema sid).compact)
  else if key = "fields" then some (JsValue.fieldsV (st.getSchema sid).fields)
  else none

/-- The properties of `Schema.prototype`: the `compact(value)` method
(src/index.js lines 97-100), the `fqn` getter and the `struct` method. -/
def schemaProtoProp (st : BState) (sid : Nat) (key : String) : Option JsValue :=
  if key = "compact" then some JsValue.compactMethodV
  else if key = "fqn" then some (JsValue.strV (fqnOf st sid))
  else if key = "struct" then some JsValue.structMethodV
  else none

/-- JS property lookup `schema.key`: own properties shadow the prototype. -/
def schemaGetProp (st : BState) (sid : Nat) (key : String) : Option JsValue :=
  match schemaOwnProp st sid key with
  | some v => some v
  | none => schemaProtoProp st sid key

def isCallable : Option JsValue → Bool
  | some (JsValue.typeMethodV _) => true
  | some JsValue.structMethodV => true
  | some JsValue.compactMethodV => true
  | _ => false

inductive JsError where
  | typeError
deriving DecidableEq, Repr

/-- A JS method call `schema.key(...)`: raises `TypeError` when the looked-up
property is not callable; otherwise the (resolved) callee is invoked. -/
def callSchemaMethod (st : BState) (sid : Nat) (key : String) : Except JsError JsValue :=
  match schemaGetProp st sid key with
  | some v => if isCallable (some v) then Except.ok v else Except.error JsError.typeError
  | none => Except.error JsError.typeError

/-!  The finalization model (`Builder._build`, src/index.js lines 253-293):
straight-line code driving the three external compiler pipelines.  The calls
it makes, in order, are recorded as a trace of events. -/

inductive BuildEvent where
  | schemaFrom (p : String)
  | schemaRegister (ns name : String) (compact : Bool) (fields : List SchemaField)
  | schemaToDisk
  | dbFrom (p q : String)
  | dbRegister (ns name schemaFqn : String) (key : List String)
  | dbToDisk
  | dispatchFrom (p q : String)
  | dispatchRegister (ns name requestType : String)
  | dispatchToDisk
deriving DecidableEq, Repr

structure BuilderObj where
  schemaPath : String
  dbPath : String
  dispatchPath : String
  state : BState

/-- `path.join` for the forward-slash paths the builder constructs. -/
def pathJoin (a b : String) : String := a ++ "/" ++ b

/-- The `Builder` constructor's paths (src/index.js lines 166-177), around an
accumulated declaration state. -/
def mkBuilder (spec : String) (st : BState) : BuilderObj :=
  { schemaPath := pathJoin spec "hyperschema", dbPath := pathJoin spec "hyperdb",
    dispatchPath := pathJoin spec "hyperdispatch", state := st }

/-- `this.namespaces.values()`: the namespaces in `Map` insertion order. -/
def nsValues (st : BState) : List NamespaceObj :=
  st.nsMap.map (fun p => st.getNs p.2)

/-- Lines 254-267: `Hyperschema.from`, one `register` per schema of every
namespace, then `Hyperschema.toDisk`. -/
def schemaPhase (b : BuilderObj) : List BuildEvent :=
  BuildEvent.schemaFrom b.schemaPath ::
    ((nsValues b.state).flatMap (fun ns =>
        ns.schemas.map (fun sid =>
          BuildEvent.schemaRegister ns.name (b.state.getSchema sid).name
            (b.state.getSchema sid).compact (b.state.getSchema sid).fields)))
    ++ [BuildEvent.schemaToDisk]

/-- Lines 269-280: `HyperdbBuilder.from`, one `collections.register` per
collection, then `HyperdbBuilder.toDisk`. -/
def dbPhase (b : BuilderObj) : List BuildEvent :=
  BuildEvent.dbFrom b.schemaPath b.dbPath ::
    ((nsValues b.state).flatMap (fun ns =>
        ns.collections.map (fun cid =>
          BuildEvent.dbRegister ns.name (b.state.getColl cid).name
            ("@" ++ ns.name ++ "/" ++ (b.state.getColl cid).name)
            (b.state.getColl cid).key)))
    ++ [BuildEvent.dbToDisk]

/-- Lines 282-292: `Hyperdispatch.from`, one `register` per dispatch, then
`Hyperdispatch.toDisk`. -/
def dispatchPhase (b : BuilderObj) : List BuildEvent :=
  BuildEvent.dispatchFrom b.schemaPath b.dispatchPath ::
    ((nsValues b.state).flatMap (fun ns =>
        ns.dispatches.map (fun d =>
          BuildEvent.dispatchRegister ns.name d.name d.requestType)))
    ++ [BuildEvent.dispatchToDisk]

/-- The full call trace of one `Builder._build()`. -/
def buildTrace (b : BuilderObj) : List BuildEvent :=
  schemaPhase b ++ dbPhase b ++ dispatchPhase b

/-- Which compiler pipeline an event belongs to: 0 = hyperschema,
1 = hyperdb, 2 = hyperdispatch. -/
def eventPhase : BuildEvent → Nat
  | BuildEvent.schemaFrom _ => 0
  | BuildEvent.schemaRegister .. => 0
  | BuildEvent.schemaToDisk => 0
  | BuildEvent.dbFrom .. => 1
  | BuildEvent.dbRegister .. => 1
  | BuildEvent.dbToDisk => 1
  | BuildEvent.dispatchFrom .. => 2
  | BuildEvent.dispatchRegister .. => 2
  | BuildEvent.dispatchToDisk => 2

/-- The `beforeExit` handler (src/index.js lines 296-301):
`for (const builder of builders) builder._build()`.  Each registry's
`_build()` outcome is given as an `Except` (the external compiler pipelines
may throw).  The result is the number of builders whose `_build()` was
invoked, paired with the exception escaping the handler, if any: a JS `for`
loop aborts at the first uncaught exception. -/
def beforeExitRun : List (Except String Unit) → Nat × Option String
  | [] => (0, none)
  | Except.ok () :: rest =>
      let r := beforeExitRun rest
      (r.1 + 1, r.2)
  | Except.error e :: _ => (1, some e)

/-- How many collections reference the schema `sid` as their paired
`CollectionSchema` (list-level form). -/
def multOf (l : List CollectionObj) (sid : Nat) : Nat :=
  (l.filter (fun c => c.schemaId == sid)).length

/-- How many collections of the state own the schema `sid` 1:1. -/
def collMult (st : BState) (sid : Nat) : Nat :=
  multOf st.collectionStore sid

/-- The state invariant maintained by every builder operation: namespace
back-references are valid, the namespace map is consistent, no schema is
`compact`, every collection's paired schema exists and is owned by exactly
one collection, and each namespace's `schemas` array lists exactly the
schemas whose back-reference points at it — in allocation order, once per
schema plus once more per collection pairing. -/
def WFState (st : BState) : Prop :=
  0 < st.nsStore.length
  ∧ (∀ sid < st.schemaStore.length, (st.getSchema sid).nsId < st.nsStore.length)
  ∧ (∀ c ∈ st.collectionStore, c.schemaId < st.schemaStore.length)
  ∧ (∀ sid < st.schemaStore.length, collMult st sid ≤ 1)
  ∧ (∀ nsId < st.nsStore.length, ∀ x ∈ (st.getNs nsId).schemas, x < st.schemaStore.length)
  ∧ (∀ nsId < st.nsStore.length, ∀ sid < st.schemaStore.length,
       (st.getNs nsId).schemas.count sid =
         if (st.getSchema sid).nsId = nsId then 1 + collMult st sid else 0)
  ∧ (∀ nsId < st.nsStore.length, List.Sorted (· ≤ ·) (st.getNs nsId).schemas)
  ∧ (∀ p ∈ st.nsMap, p.2 < st.nsStore.length ∧ (st.getNs p.2).name = p.1)
  ∧ (∀ sid < st.schemaStore.length, (st.getSchema sid).compact = false)

/-- What a callback run against schema `sid` leaves untouched: the namespace
map, the collections, namespace names/collections/dispatches, every other
pre-existing schema, and the identity (namespace and name) of `sid` itself.
New schemas may only be appended. -/
def RunFrame (sid : Nat) (st st2 : BState) : Prop :=
  st2.nsMap = st.nsMap
  ∧ st2.collectionStore = st.collectionStore
  ∧ st2.nsStore.length = st.nsStore.length
  ∧ (∀ j, (st2.getNs j).name = (st.getNs j).name)
  ∧ (∀ j, (st2.getNs j).collections = (st.getNs j).collections)
  ∧ (∀ j, (st2.getNs j).dispatches = (st.getNs j).dispatches)
  ∧ st.schemaStore.length ≤ st2.schemaStore.length
  ∧ (∀ j, j < st.schemaStore.length → j ≠ sid → st2.getSchema j = st.getSchema j)
  ∧ (st2.getSchema sid).nsId = (st.getSchema sid).nsId
  ∧ (st2.getSchema sid).name = (st.getSchema sid).name

/-!  List-level helper lemmas. -/

theorem getD_append_lt {α : Type} (l t : List α) (i : Nat) (d : α) (h : i < l.length) :
    (l ++ t).getD i d = l.getD i d := by
  induction l generalizing i with
  | nil => simp at h
  | cons a l ih =>
      cases i with
      | zero => rfl
      | succ i => simpa using ih i (by simpa using h)

theorem getD_append_len {α : Type} (l : List α) (a : α) (d : α) :
    (l ++ [a]).getD l.length d = a := by
  induction l with
  | nil => rfl
  | cons b l ih => simp [ih]

theorem getD_of_le {α : Type} (l : List α) (i : Nat) (d : α) (h : l.length ≤ i) :
    l.getD i d = d := by
  induction l generalizing i with
  | nil => cases i <;> rfl
  | cons a l ih =>
      cases i with
      | zero => simp at h
      | succ i => simpa using ih i (by simpa using h)

theorem getD_set_self {α : Type} (l : List α) (i : Nat) (v d : α) (h : i < l.length) :
    (l.set i v).getD i d = v := by
  induction l generalizing i with
  | nil => simp at h
  | cons a l ih =>
      cases i with
      | zero => rfl
      | succ i => simpa using ih i (by simpa using h)

theorem getD_set_ne {α : Type} (l : List α) (i j : Nat) (v d : α) (h : j ≠ i) :
    (l.set i v).getD j d = l.getD j d := by
  induction l generalizing i j with
  | nil => simp
  | cons a l ih =>
      cases i with
      | zero => cases j with
        | zero => exact absurd rfl h
        | succ j => rfl
      | succ i =>
          cases j with
          | zero => rfl
          | succ j => simpa using ih i j (by omega)

theorem lookupStr_append_some (k : String) (l t : List (String × Nat)) (v : Nat)
    (h : lookupStr k l = some v) : lookupStr k (l ++ t) = some v := by
  induction l with
  | nil => simp [lookupStr] at h
  | cons p l ih =>
      obtain ⟨k2, w⟩ := p
      by_cases hk : k = k2
      · simpa [lookupStr, hk] using by simpa [lookupStr, hk] using h
      · simp only [lookupStr, if_neg hk] at h ⊢
        exact ih h

theorem lookupStr_append_hit (k : String) (l : List (String × Nat)) (v : Nat)
    (h : lookupStr k l = none) : lookupStr k (l ++ [(k, v)]) = some v := by
  induction l with
  | nil => simp [lookupStr]
  | cons p l ih =>
      obtain ⟨k2, w⟩ := p
      by_cases hk : k = k2
      · simp [lookupStr, hk] at h
      · simp only [lookupStr, if_neg hk] at h ⊢
        exact ih h

theorem sorted_append_singleton (l : List Nat) (a : Nat)
    (hs : List.Sorted (· ≤ ·) l) (hb : ∀ x ∈ l, x ≤ a) :
    List.Sorted (· ≤ ·) (l ++ [a]) := by
  rw [List.Sorted, List.pairwise_append]
  refine ⟨hs, List.pairwise_singleton _ _, ?_⟩
  intro x hx y hy
  simp only [List.mem_singleton] at hy
  subst hy
  exact hb x hx

theorem getD_set_getD {α : Type} (l : List α) (i j : Nat) (g : α → α) (d : α) :
    (l.set i (g (l.getD i d))).getD j d =
      if j = i ∧ i < l.length then g (l.getD i d) else l.getD j d := by
  by_cases h1 : j = i
  · subst h1
    by_cases h2 : j < l.length
    · simp [getD_set_self _ _ _ _ h2, h2]
    · have hlen : l.length ≤ j := Nat.le_of_not_lt h2
      simp only [h2, and_false, if_false]
      rw [getD_of_le _ _ _ (by simpa using hlen), getD_of_le _ _ _ hlen]
  · rw [getD_set_ne _ _ _ _ _ h1]
    simp [h1]

theorem getD_append_cases {α : Type} (l : List α) (a : α) (j : Nat) (d : α) :
    (l ++ [a]).getD j d = if j = l.length then a else l.getD j d := by
  by_cases h1 : j = l.length
  · subst h1
    simp [getD_append_len]
  · rcases Nat.lt_or_ge j l.length with h2 | h2
    · rw [getD_append_lt _ _ _ _ h2]
      simp [h1]
    · have h3 : l.length < j := by omega
      simp only [h1, if_false]
      rw [getD_of_le _ _ _ (by simp; omega), getD_of_le _ _ _ (by omega)]

theorem pairwise_le_of_const (l : List Nat) (c : Nat) (h : ∀ x ∈ l, x = c) :
    List.Sorted (· ≤ ·) l := by
  induction l with
  | nil => simp
  | cons a l ih =>
      refine List.Pairwise.cons ?_ (ih fun x hx => h x (List.mem_cons_of_mem a hx))
      intro b hb
      rw [h a (List.mem_cons_self a l), h b (List.mem_cons_of_mem a hb)]

/-!  Frame lemmas for the primitive state operations. -/

theorem nsMap_appendField (sid : Nat) (f : SchemaField) (st : BState) :
    (appendField sid f st).nsMap = st.nsMap := rfl

theorem collectionStore_appendField (sid : Nat) (f : SchemaField) (st : BState) :
    (appendField sid f st).collectionStore = st.collectionStore := rfl

theorem nsStore_appendField (sid : Nat) (f : SchemaField) (st : BState) :
    (appendField sid f st).nsStore = st.nsStore := rfl

theorem schemaStore_length_appendField (sid : Nat) (f : SchemaField) (st : BState) :
    (appendField sid f st).schemaStore.length = st.schemaStore.length := by
  simp [appendField, updateSchema]

theorem getNs_appendField (sid : Nat) (f : SchemaField) (st : BState) (j : Nat) :
    (appendField sid f st).getNs j = st.getNs j := rfl

theorem getColl_appendField (sid : Nat) (f : SchemaField) (st : BState) (j : Nat) :
    (appendField sid f st).getColl j = st.getColl j := rfl

theorem getSchema_appendField (sid : Nat) (f : SchemaField) (st : BState) (j : Nat) :
    (appendField sid f st).getSchema j =
      if j = sid ∧ sid < st.schemaStore.length
      then { st.getSchema sid with fields := (st.getSchema sid).fields ++ [f] }
      else st.getSchema j := by
  simp only [appendField, updateSchema, BState.getSchema]
  exact getD_set_getD st.schemaStore sid j (fun s => { s with fields := s.fields ++ [f] }) default

theorem allocSchema_snd (nsId : Nat) (name : String) (st : BState) :
    (allocSchema nsId name st).2 = st.schemaStore.length := rfl

theorem schemaStore_allocSchema (nsId : Nat) (name : String) (st : BState) :
    (allocSchema nsId name st).1.schemaStore =
      st.schemaStore ++ [{ nsId := nsId, name := name, compact := false, fields := [] }] := rfl

theorem collectionStore_allocSchema (nsId : Nat) (name : String) (st : BState) :
    (allocSchema nsId name st).1.collectionStore = st.collectionStore := rfl

theorem nsMap_allocSchema (nsId : Nat) (name : String) (st : BState) :
    (allocSchema nsId name st).1.nsMap = st.nsMap := rfl

theorem nsStore_length_allocSchema (nsId : Nat) (name : String) (st : BState) :
    (allocSchema nsId name st).1.nsStore.length = st.nsStore.length := by
  simp [allocSchema, updateNs]

theorem getNs_allocSchema (nsId : Nat) (name : String) (st : BState) (j : Nat) :
    (allocSchema nsId name st).1.getNs j =
      if j = nsId ∧ nsId < st.nsStore.length
      then { st.getNs nsId with schemas := (st.getNs nsId).schemas ++ [st.schemaStore.length] }
      else st.getNs j := by
  simp only [allocSchema, updateNs, BState.getNs]
  exact getD_set_getD st.nsStore nsId j
    (fun ns => { ns with schemas := ns.schemas ++ [st.schemaStore.length] }) default

theorem getSchema_allocSchema (nsId : Nat) (name : String) (st : BState) (j : Nat) :
    (allocSchema nsId name st).1.getSchema j =
      if j = st.schemaStore.length
      then { nsId := nsId, name := name, compact := false, fields := [] }
      else st.getSchema j := by
  simp only [BState.getSchema, schemaStore_allocSchema]
  exact getD_append_cases st.schemaStore _ j default

theorem schemaStore_setKey (cid : Nat) (ks : List String) (st : BState) :
    (setKey cid ks st).schemaStore = st.schemaStore := rfl

theorem nsStore_setKey (cid : Nat) (ks : List String) (st : BState) :
    (setKey cid ks st).nsStore = st.nsStore := rfl

theorem nsMap_setKey (cid : Nat) (ks : List String) (st : BState) :
    (setKey cid ks st).nsMap = st.nsMap := rfl

theorem getSchema_setKey (cid : Nat) (ks : List String) (st : BState) (j : Nat) :
    (setKey cid ks st).getSchema j = st.getSchema j := rfl

theorem getNs_setKey (cid : Nat) (ks : List String) (st : BState) (j : Nat) :
    (setKey cid ks st).getNs j = st.getNs j := rfl

theorem collectionStore_length_setKey (cid : Nat) (ks : List String) (st : BState) :
    (setKey cid ks st).collectionStore.length = st.collectionStore.length := by
  simp [setKey, updateColl]

theorem getColl_setKey (cid : Nat) (ks : List String) (st : BState) (j : Nat) :
    (setKey cid ks st).getColl j =
      if j = cid ∧ cid < st.collectionStore.length
      then { st.getColl cid with key := ks }
      else st.getColl j := by
  simp only [setKey, updateColl, BState.getColl]
  exact getD_set_getD st.collectionStore cid j (fun c => { c with key := ks }) default

theorem schemaStore_pushDispatch (nsId : Nat) (d : DispatchObj) (st : BState) :
    (pushDispatch nsId d st).schemaStore = st.schemaStore := rfl

theorem collectionStore_pushDispatch (nsId : Nat) (d : DispatchObj) (st : BState) :
    (pushDispatch nsId d st).collectionStore = st.collectionStore := rfl

theorem nsMap_pushDispatch (nsId : Nat) (d : DispatchObj) (st : BState) :
    (pushDispatch nsId d st).nsMap = st.nsMap := rfl

theorem nsStore_length_pushDispatch (nsId : Nat) (d : DispatchObj) (st : BState) :
    (pushDispatch nsId d st).nsStore.length = st.nsStore.length := by
  simp [pushDispatch, updateNs]

theorem getSchema_pushDispatch (nsId : Nat) (d : DispatchObj) (st : BState) (j : Nat) :
    (pushDispatch nsId d st).getSchema j = st.getSchema j := rfl

theorem getColl_pushDispatch (nsId : Nat) (d : DispatchObj) (st : BState) (j : Nat) :
    (pushDispatch nsId d st).getColl j = st.getColl j := rfl

theorem getNs_pushDispatch (nsId : Nat) (d : DispatchObj) (st : BState) (j : Nat) :
    (pushDispatch nsId d st).getNs j =
      if j = nsId ∧ nsId < st.nsStore.length
      then { st.getNs nsId with dispatches := (st.getNs nsId).dispatches ++ [d] }
      else st.getNs j := by
  simp only [pushDispatch, updateNs, BState.getNs]
  exact getD_set_getD st.nsStore nsId j
    (fun ns => { ns with dispatches := ns.dispatches ++ [d] }) default

theorem extractNamespace_noAt (st : BState) (name : String)
    (h : headIsAtSign ((splitSlash name).headD "") = false) :
    extractNamespace st name = (st, 0, name) := by
  simp only [extractNamespace]
  rw [h]
  simp

theorem extractNamespace_found (st : BState) (name : String) (i : Nat)
    (h1 : headIsAtSign ((splitSlash name).headD "") = true)
    (h2 : lookupStr (dropFirstChar ((splitSlash name).headD "")) st.nsMap = some i) :
    extractNamespace st name = (st, i, joinSlash (splitSlash name).tail) := by
  simp only [extractNamespace]
  rw [h1, h2]
  rfl

theorem extractNamespace_fresh (st : BState) (name : String)
    (h1 : headIsAtSign ((splitSlash name).headD "") = true)
    (h2 : lookupStr (dropFirstChar ((splitSlash name).headD "")) st.nsMap = none) :
    extractNamespace st name =
      ({ st with
           nsStore := st.nsStore ++
             [{ name := dropFirstChar ((splitSlash name).headD ""), schemas := [],
                collections := [], dispatches := [] }],
           nsMap := st.nsMap ++
             [(dropFirstChar ((splitSlash name).headD ""), st.nsStore.length)] },
       st.nsStore.length, joinSlash (splitSlash name).tail) := by
  simp only [extractNamespace]
  rw [h1, h2]
  rfl

theorem runCb_done (sid : Nat) (st : BState) : runCb sid SchemaCb.done st = st := rfl

theorem runCb_seq (sid : Nat) (op : SchemaOp) (rest : SchemaCb) (st : BState) :
    runCb sid (SchemaCb.seq op rest) st = runCb sid rest (runOp sid op st) := rfl

theorem runOp_typeField (sid : Nat) (tag n : String) (req : Bool) (st : BState) :
    runOp sid (SchemaOp.typeField tag n req) st =
      appendField sid { name := n, type := tag, required := req } st := rfl

theorem runOp_structRef (sid : Nat) (n ref : String) (req : Bool) (st : BState) :
    runOp sid (SchemaOp.structRef n ref req) st =
      appendField sid { name := n, type := ref, required := req } st := rfl

theorem runOp_structInline (sid : Nat) (n : String) (cb : SchemaCb) (req : Bool) (st : BState) :
    runOp sid (SchemaOp.structInline n cb req) st =
      (fun st2 => appendField sid
          { name := n,
            type := fqnOf st2 (allocSchema (st.getSchema sid).nsId
              ((st.getSchema sid).name ++ "/" ++ n) st).2,
            required := req } st2)
        (runCb (allocSchema (st.getSchema sid).nsId ((st.getSchema sid).name ++ "/" ++ n) st).2
          cb
          (allocSchema (st.getSchema sid).nsId ((st.getSchema sid).name ++ "/" ++ n) st).1) := rfl

/-!  Multiplicity lemmas. -/

theorem multOf_nil (sid : Nat) : multOf [] sid = 0 := rfl

theorem multOf_cons (c : CollectionObj) (t : List CollectionObj) (sid : Nat) :
    multOf (c :: t) sid = multOf t sid + if c.schemaId = sid then 1 else 0 := by
  by_cases h : c.schemaId = sid
  · simp [multOf, List.filter_cons, h]
  · simp [multOf, List.filter_cons, h]

theorem multOf_append (l t : List CollectionObj) (sid : Nat) :
    multOf (l ++ t) sid = multOf l sid + multOf t sid := by
  simp [multOf, List.filter_append]

theorem multOf_eq_zero (l : List CollectionObj) (sid : Nat)
    (h : ∀ c ∈ l, c.schemaId ≠ sid) : multOf l sid = 0 := by
  induction l with
  | nil => rfl
  | cons c t ih =>
      rw [multOf_cons, ih (fun x hx => h x (List.mem_cons_of_mem c hx)),
        if_neg (h c (List.mem_cons_self c t))]

theorem multOf_eq_count_map (l : List CollectionObj) (sid : Nat) :
    multOf l sid = (l.map (fun c => c.schemaId)).count sid := by
  induction l with
  | nil => rfl
  | cons c t ih =>
      rw [multOf_cons, ih, List.map_cons, List.count_cons]
      by_cases h : c.schemaId = sid
      · simp [h]
      · simp [h, Ne.symm h]

theorem map_schemaId_setKey (l : List CollectionObj) (i : Nat) (ks : List String) :
    (l.set i { l.getD i default with key := ks }).map (fun c => c.schemaId) =
      l.map (fun c => c.schemaId) := by
  induction l generalizing i with
  | nil => simp
  | cons c t ih =>
      cases i with
      | zero => simp [List.set]
      | succ i =>
          simp only [List.set, List.map_cons]
          rw [show (c :: t).getD (i + 1) default = t.getD i default from rfl]
          rw [ih i]

/-!  Congruence: the invariant only depends on a few projections of the
state, so operations preserving those preserve it. -/

theorem wf_congr (st st' : BState)
    (hlen : st'.schemaStore.length = st.schemaStore.length)
    (hcollmap : st'.collectionStore.map (fun c => c.schemaId) =
      st.collectionStore.map (fun c => c.schemaId))
    (hmap : st'.nsMap = st.nsMap)
    (hnslen : st'.nsStore.length = st.nsStore.length)
    (hnss : ∀ j, (st'.getNs j).schemas = (st.getNs j).schemas)
    (hnsn : ∀ j, (st'.getNs j).name = (st.getNs j).name)
    (hsid : ∀ s, (st'.getSchema s).nsId = (st.getSchema s).nsId)
    (hsc : ∀ s, (st'.getSchema s).compact = (st.getSchema s).compact)
    (h : WFState st) : WFState st' := by
  obtain ⟨h1, h2, h3, h4, h5, h6, h7, h8, h9⟩ := h
  have hcm : ∀ sid, collMult st' sid = collMult st sid := by
    intro sid
    rw [collMult, collMult, multOf_eq_count_map, multOf_eq_count_map, hcollmap]
  refine ⟨?_, ?_, ?_, ?_, ?_, ?_, ?_, ?_, ?_⟩
  · omega
  · intro s hs
    rw [hsid, hnslen]
    exact h2 s (by omega)
  · intro c hc
    have hm : c.schemaId ∈ st'.collectionStore.map (fun c => c.schemaId) :=
      List.mem_map_of_mem _ hc
    rw [hcollmap] at hm
    obtain ⟨c0, hc0, he⟩ := List.mem_map.mp hm
    rw [hlen, ← he]
    exact h3 c0 hc0
  · intro s hs
    rw [hcm]
    exact h4 s (by omega)
  · intro j hj x hx
    rw [hnss] at hx
    rw [hlen]
    exact h5 j (by omega) x hx
  · intro j hj s hs
    rw [hnss, hsid, hcm]
    exact h6 j (by omega) s (by omega)
  · intro j hj
    rw [hnss]
    exact h7 j (by omega)
  · intro p hp
    rw [hmap] at hp
    rw [hnslen, hnsn]
    exact h8 p hp
  · intro s hs
    rw [hsc]
    exact h9 s (by omega)

theorem wf_appendField (sid : Nat) (f : SchemaField) (st : BState)
    (h : WFState st) : WFState (appendField sid f st) := by
  refine wf_congr st (appendField sid f st) (schemaStore_length_appendField sid f st)
    (by rw [collectionStore_appendField]) (nsMap_appendField sid f st)
    (by rw [nsStore_appendField]) (fun j => by rw [getNs_appendField])
    (fun j => by rw [getNs_appendField]) ?_ ?_ h
  · intro s
    rw [getSchema_appendField]
    split
    · rename_i hc
      obtain ⟨he, _⟩ := hc
      subst he
      rfl
    · rfl
  · intro s
    rw [getSchema_appendField]
    split
    · rename_i hc
      obtain ⟨he, _⟩ := hc
      subst he
      rfl
    · rfl

theorem wf_setKey (cid : Nat) (ks : List String) (st : BState)
    (h : WFState st) : WFState (setKey cid ks st) := by
  refine wf_congr st (setKey cid ks st) (by rw [schemaStore_setKey])
    ?_ (nsMap_setKey cid ks st) (by rw [nsStore_setKey])
    (fun j => by rw [getNs_setKey]) (fun j => by rw [getNs_setKey])
    (fun s => by rw [getSchema_setKey]) (fun s => by rw [getSchema_setKey]) h
  exact map_schemaId_setKey st.collectionStore cid ks

theorem getNs_updateNs (nsId : Nat) (f : NamespaceObj → NamespaceObj) (st : BState) (j : Nat) :
    (updateNs nsId f st).getNs j =
      if j = nsId ∧ nsId < st.nsStore.length then f (st.getNs nsId) else st.getNs j := by
  simp only [updateNs, BState.getNs]
  exact getD_set_getD st.nsStore nsId j f default

theorem nsStore_length_updateNs (nsId : Nat) (f : NamespaceObj → NamespaceObj) (st : BState) :
    (updateNs nsId f st).nsStore.length = st.nsStore.length := by
  simp [updateNs]

theorem wf_pushDispatch (nsId : Nat) (d : DispatchObj) (st : BState)
    (h : WFState st) : WFState (pushDispatch nsId d st) := by
  refine wf_congr st (pushDispatch nsId d st) (by rw [schemaStore_pushDispatch])
    (by rw [collectionStore_pushDispatch]) (nsMap_pushDispatch nsId d st)
    (nsStore_length_pushDispatch nsId d st) ?_ ?_
    (fun s => by rw [getSchema_pushDispatch]) (fun s => by rw [getSchema_pushDispatch]) h
  · intro j
    rw [getNs_pushDispatch]
    split <;> [rename_i hc; rfl]
    obtain ⟨he, _⟩ := hc
    subst he
    rfl
  · intro j
    rw [getNs_pushDispatch]
    split <;> [rename_i hc; rfl]
    obtain ⟨he, _⟩ := hc
    subst he
    rfl

theorem nsId_lt_of_wf (st : BState) (sid : Nat) (h : WFState st) :
    (st.getSchema sid).nsId < st.nsStore.length := by
  obtain ⟨h1, h2, _⟩ := h
  by_cases hs : sid < st.schemaStore.length
  · exact h2 sid hs
  · have hd : st.getSchema sid = default := by
      rw [BState.getSchema]
      exact getD_of_le _ _ _ (by omega)
    rw [hd]
    simpa using h1


theorem wf_allocSchema (nsId : Nat) (name : String) (st : BState)
    (hns : nsId < st.nsStore.length) (h : WFState st) :
    WFState (allocSchema nsId name st).1 := by
  obtain ⟨h1, h2, h3, h4, h5, h6, h7, h8, h9⟩ := h
  have hcoll : (allocSchema nsId name st).1.collectionStore = st.collectionStore :=
    collectionStore_allocSchema nsId name st
  have hcm : ∀ s, collMult (allocSchema nsId name st).1 s = collMult st s := by
    intro s
    rw [collMult, collMult, hcoll]
  have hlen : (allocSchema nsId name st).1.schemaStore.length = st.schemaStore.length + 1 := by
    rw [schemaStore_allocSchema]
    simp
  have hmn : collMult st st.schemaStore.length = 0 := by
    refine multOf_eq_zero _ _ ?_
    intro c hc
    have := h3 c hc
    omega
  refine ⟨?_, ?_, ?_, ?_, ?_, ?_, ?_, ?_, ?_⟩
  · rw [nsStore_length_allocSchema]
    exact h1
  · intro s hs
    rw [nsStore_length_allocSchema, getSchema_allocSchema]
    split
    · simpa using hns
    · rename_i hne
      rw [hlen] at hs
      exact h2 s (by omega)
  · intro c hc
    rw [hcoll] at hc
    rw [hlen]
    have := h3 c hc
    omega
  · intro s hs
    rw [hcm]
    rw [hlen] at hs
    by_cases hsl : s < st.schemaStore.length
    · exact h4 s hsl
    · have hse : s = st.schemaStore.length := by omega
      rw [hse, hmn]
      omega
  · intro j hj x hx
    rw [nsStore_length_allocSchema] at hj
    rw [getNs_allocSchema] at hx
    rw [hlen]
    by_cases hc : j = nsId ∧ nsId < st.nsStore.length
    · rw [if_pos hc] at hx
      simp only [List.mem_append, List.mem_singleton] at hx
      rcases hx with hx | hx
      · have := h5 nsId hns x hx
        omega
      · omega
    · rw [if_neg hc] at hx
      have := h5 j hj x hx
      omega
  · intro j hj s hs
    rw [nsStore_length_allocSchema] at hj
    rw [hlen] at hs
    rw [getNs_allocSchema, getSchema_allocSchema, hcm]
    by_cases hse : s = st.schemaStore.length
    · subst hse
      rw [if_pos rfl]
      by_cases hj2 : j = nsId
      · subst hj2
        rw [if_pos ⟨rfl, hns⟩, List.count_append, List.count_singleton']
        have hz : (st.getNs j).schemas.count st.schemaStore.length = 0 := by
          rw [List.count_eq_zero]
          intro hm
          have := h5 j hj _ hm
          omega
        rw [hz, hmn, if_pos rfl]
        simp
      · rw [if_neg (by intro hc; exact hj2 hc.1)]
        have hz : (st.getNs j).schemas.count st.schemaStore.length = 0 := by
          rw [List.count_eq_zero]
          intro hm
          have := h5 j hj _ hm
          omega
        rw [hz, if_neg (by intro hc; exact hj2 hc.symm)]
    · have hsl : s < st.schemaStore.length := by omega
      rw [if_neg hse]
      by_cases hj2 : j = nsId
      · subst hj2
        rw [if_pos ⟨rfl, hns⟩, List.count_append, List.count_singleton',
          if_neg (by omega : ¬st.schemaStore.length = s)]
        rw [Nat.add_zero]
        exact h6 j hj s hsl
      · rw [if_neg (by intro hc; exact hj2 hc.1)]
        exact h6 j hj s hsl
  · intro j hj
    rw [nsStore_length_allocSchema] at hj
    rw [getNs_allocSchema]
    by_cases hc : j = nsId ∧ nsId < st.nsStore.length
    · rw [if_pos hc]
      refine sorted_append_singleton _ _ (h7 nsId hns) ?_
      intro x hx
      have := h5 nsId hns x hx
      omega
    · rw [if_neg hc]
      exact h7 j hj
  · intro p hp
    rw [nsMap_allocSchema] at hp
    rw [nsStore_length_allocSchema, getNs_allocSchema]
    obtain ⟨hlt, hname⟩ := h8 p hp
    refine ⟨hlt, ?_⟩
    by_cases hc : p.2 = nsId ∧ nsId < st.nsStore.length
    · rw [if_pos hc]
      show (st.getNs nsId).name = p.1
      rw [hc.1] at hname
      exact hname
    · rw [if_neg hc]
      exact hname
  · intro s hs
    rw [hlen] at hs
    rw [getSchema_allocSchema]
    by_cases hse : s = st.schemaStore.length
    · rw [if_pos hse]
    · rw [if_neg hse]
      exact h9 s (by omega)

/-!  Characterization of the `Collection` constructor. -/

theorem getNs_pushCollObj (c : CollectionObj) (st : BState) (j : Nat) :
    (pushCollObj c st).getNs j = st.getNs j := rfl

theorem getSchema_pushCollObj (c : CollectionObj) (st : BState) (j : Nat) :
    (pushCollObj c st).getSchema j = st.getSchema j := rfl

theorem getNs_pushNsSchema (nsId sid : Nat) (st : BState) (j : Nat) :
    (pushNsSchema nsId sid st).getNs j =
      if j = nsId ∧ nsId < st.nsStore.length
      then { st.getNs nsId with schemas := (st.getNs nsId).schemas ++ [sid] }
      else st.getNs j := getNs_updateNs nsId _ st j

theorem getNs_pushNsColl (nsId cid : Nat) (st : BState) (j : Nat) :
    (pushNsColl nsId cid st).getNs j =
      if j = nsId ∧ nsId < st.nsStore.length
      then { st.getNs nsId with collections := (st.getNs nsId).collections ++ [cid] }
      else st.getNs j := getNs_updateNs nsId _ st j

theorem allocCollection_snd (nsId : Nat) (name : String) (st : BState) :
    (allocCollection nsId name st).2 = st.collectionStore.length := rfl

theorem schemaStore_allocCollection (nsId : Nat) (name : String) (st : BState) :
    (allocCollection nsId name st).1.schemaStore =
      st.schemaStore ++ [{ nsId := nsId, name := name, compact := false, fields := [] }] := rfl

theorem collectionStore_allocCollection (nsId : Nat) (name : String) (st : BState) :
    (allocCollection nsId name st).1.collectionStore =
      st.collectionStore ++
        [{ schemaId := st.schemaStore.length, name := name, indexes := [], key := [] }] := rfl

theorem nsMap_allocCollection (nsId : Nat) (name : String) (st : BState) :
    (allocCollection nsId name st).1.nsMap = st.nsMap := rfl

theorem nsStore_length_allocCollection (nsId : Nat) (name : String) (st : BState) :
    (allocCollection nsId name st).1.nsStore.length = st.nsStore.length := by
  simp only [allocCollection, pushNsColl, pushNsSchema]
  rw [nsStore_length_updateNs, nsStore_length_updateNs]
  exact nsStore_length_allocSchema nsId name st

theorem getSchema_allocCollection (nsId : Nat) (name : String) (st : BState) (j : Nat) :
    (allocCollection nsId name st).1.getSchema j =
      if j = st.schemaStore.length
      then { nsId := nsId, name := name, compact := false, fields := [] }
      else st.getSchema j := by
  simp only [BState.getSchema, schemaStore_allocCollection]
  exact getD_append_cases st.schemaStore _ j default

theorem getColl_allocCollection (nsId : Nat) (name : String) (st : BState) (j : Nat) :
    (allocCollection nsId name st).1.getColl j =
      if j = st.collectionStore.length
      then { schemaId := st.schemaStore.length, name := name, indexes := [], key := [] }
      else st.getColl j := by
  simp only [BState.getColl, collectionStore_allocCollection]
  exact getD_append_cases st.collectionStore _ j default

theorem nsStore_length_pushNsSchema (nsId sid : Nat) (st : BState) :
    (pushNsSchema nsId sid st).nsStore.length = st.nsStore.length :=
  nsStore_length_updateNs nsId _ st

theorem nsStore_length_pushCollObj (c : CollectionObj) (st : BState) :
    (pushCollObj c st).nsStore.length = st.nsStore.length := rfl

theorem getNs_allocCollection (nsId : Nat) (name : String) (st : BState) (j : Nat) :
    (allocCollection nsId name st).1.getNs j =
      if j = nsId ∧ nsId < st.nsStore.length
      then { st.getNs nsId with
               schemas := (st.getNs nsId).schemas ++ [st.schemaStore.length] ++
                 [st.schemaStore.length],
               collections := (st.getNs nsId).collections ++ [st.collectionStore.length] }
      else st.getNs j := by
  simp only [allocCollection, collectionStore_allocSchema]
  rw [getNs_pushNsColl]
  simp only [nsStore_length_pushNsSchema, nsStore_length_pushCollObj,
    nsStore_length_allocSchema, getNs_pushNsSchema, getNs_pushCollObj, getNs_allocSchema,
    allocSchema_snd]
  by_cases hc : j = nsId ∧ nsId < st.nsStore.length
  · obtain ⟨hj, hns⟩ := hc
    subst hj
    simp [hns]
  · simp only [if_neg hc]

theorem wf_allocCollection (nsId : Nat) (name : String) (st : BState)
    (hns : nsId < st.nsStore.length) (h : WFState st) :
    WFState (allocCollection nsId name st).1 := by
  obtain ⟨h1, h2, h3, h4, h5, h6, h7, h8, h9⟩ := h
  have hcm : ∀ s, collMult (allocCollection nsId name st).1 s =
      collMult st s + if st.schemaStore.length = s then 1 else 0 := by
    intro s
    rw [collMult, collectionStore_allocCollection, multOf_append, collMult]
    rw [multOf_cons, multOf_nil]
    simp
  have hlen : (allocCollection nsId name st).1.schemaStore.length =
      st.schemaStore.length + 1 := by
    rw [schemaStore_allocCollection]
    simp
  have hmn : collMult st st.schemaStore.length = 0 := by
    refine multOf_eq_zero _ _ ?_
    intro c hc
    have := h3 c hc
    omega
  refine ⟨?_, ?_, ?_, ?_, ?_, ?_, ?_, ?_, ?_⟩
  · rw [nsStore_length_allocCollection]
    exact h1
  · intro s hs
    rw [nsStore_length_allocCollection, getSchema_allocCollection]
    split
    · simpa using hns
    · rename_i hne
      rw [hlen] at hs
      exact h2 s (by omega)
  · intro c hc
    rw [collectionStore_allocCollection] at hc
    rw [hlen]
    simp only [List.mem_append, List.mem_singleton] at hc
    rcases hc with hc | hc
    · have := h3 c hc
      omega
    · rw [hc]
      show st.schemaStore.length < st.schemaStore.length + 1
      omega
  · intro s hs
    rw [hcm]
    rw [hlen] at hs
    by_cases hsl : s < st.schemaStore.length
    · rw [if_neg (by omega)]
      have := h4 s hsl
      omega
    · have hse : st.schemaStore.length = s := by omega
      rw [if_pos hse, ← hse, hmn]
  · intro j hj x hx
    rw [nsStore_length_allocCollection] at hj
    rw [getNs_allocCollection] at hx
    rw [hlen]
    by_cases hc : j = nsId ∧ nsId < st.nsStore.length
    · rw [if_pos hc] at hx
      simp only [List.mem_append, List.mem_singleton] at hx
      rcases hx with (hx | hx) | hx
      · have := h5 nsId hns x hx
        omega
      · omega
      · omega
    · rw [if_neg hc] at hx
      have := h5 j hj x hx
      omega
  · intro j hj s hs
    rw [nsStore_length_allocCollection] at hj
    rw [hlen] at hs
    rw [getNs_allocCollection, getSchema_allocCollection, hcm]
    by_cases hse : s = st.schemaStore.length
    · subst hse
      rw [if_pos rfl, hmn, if_pos rfl]
      by_cases hj2 : j = nsId
      · subst hj2
        rw [if_pos ⟨rfl, hns⟩, List.count_append, List.count_append]
        have hz : (st.getNs j).schemas.count st.schemaStore.length = 0 := by
          rw [List.count_eq_zero]
          intro hm
          have := h5 j hj _ hm
          omega
        rw [hz]
        simp
      · rw [if_neg (by intro hc; exact hj2 hc.1)]
        have hz : (st.getNs j).schemas.count st.schemaStore.length = 0 := by
          rw [List.count_eq_zero]
          intro hm
          have := h5 j hj _ hm
          omega
        rw [hz, if_neg (by intro hc; exact hj2 hc.symm)]
    · have hsl : s < st.schemaStore.length := by omega
      rw [if_neg hse, if_neg (by omega : ¬st.schemaStore.length = s), Nat.add_zero]
      by_cases hj2 : j = nsId
      · subst hj2
        rw [if_pos ⟨rfl, hns⟩, List.count_append, List.count_append,
          List.count_singleton', if_neg (by omega : ¬st.schemaStore.length = s)]
        rw [Nat.add_zero]
        exact h6 j hj s hsl
      · rw [if_neg (by intro hc; exact hj2 hc.1)]
        exact h6 j hj s hsl
  · intro j hj
    rw [nsStore_length_allocCollection] at hj
    rw [getNs_allocCollection]
    by_cases hc : j = nsId ∧ nsId < st.nsStore.length
    · rw [if_pos hc]
      show List.Sorted (· ≤ ·)
        ((st.getNs nsId).schemas ++ [st.schemaStore.length] ++ [st.schemaStore.length])
      refine sorted_append_singleton _ _ ?_ ?_
      · refine sorted_append_singleton _ _ (h7 nsId hns) ?_
        intro x hx
        have := h5 nsId hns x hx
        omega
      · intro x hx
        simp only [List.mem_append, List.mem_singleton] at hx
        rcases hx with hx | hx
        · have := h5 nsId hns x hx
          omega
        · omega
    · rw [if_neg hc]
      exact h7 j hj
  · intro p hp
    rw [nsMap_allocCollection] at hp
    rw [nsStore_length_allocCollection, getNs_allocCollection]
    obtain ⟨hlt, hname⟩ := h8 p hp
    refine ⟨hlt, ?_⟩
    by_cases hc : p.2 = nsId ∧ nsId < st.nsStore.length
    · rw [if_pos hc]
      show (st.getNs nsId).name = p.1
      rw [hc.1] at hname
      exact hname
    · rw [if_neg hc]
      exact hname
  · intro s hs
    rw [hlen] at hs
    rw [getSchema_allocCollection]
    by_cases hse : s = st.schemaStore.length
    · rw [if_pos hse]
    · rw [if_neg hse]
      exact h9 s (by omega)

theorem lookupStr_mem (k : String) (l : List (String × Nat)) (v : Nat)
    (h : lookupStr k l = some v) : (k, v) ∈ l := by
  induction l with
  | nil => simp [lookupStr] at h
  | cons p l ih =>
      obtain ⟨k2, w⟩ := p
      by_cases hk : k = k2
      · subst hk
        have h2 : w = v := by
          have h3 : some w = some v := by simpa [lookupStr] using h
          exact Option.some_inj.mp h3
        subst h2
        exact List.mem_cons_self _ _
      · simp only [lookupStr, if_neg hk] at h
        exact List.mem_cons_of_mem _ (ih h)

theorem wf_freshNs (st : BState) (nsName : String) (h : WFState st) :
    WFState { st with
      nsStore := st.nsStore ++
        [{ name := nsName, schemas := [], collections := [], dispatches := [] }],
      nsMap := st.nsMap ++ [(nsName, st.nsStore.length)] } := by
  obtain ⟨h1, h2, h3, h4, h5, h6, h7, h8, h9⟩ := h
  have hg : ∀ j, ({ st with
      nsStore := st.nsStore ++
        [{ name := nsName, schemas := [], collections := [], dispatches := [] }],
      nsMap := st.nsMap ++ [(nsName, st.nsStore.length)] } : BState).getNs j =
      if j = st.nsStore.length
      then { name := nsName, schemas := [], collections := [], dispatches := [] }
      else st.getNs j := by
    intro j
    simp only [BState.getNs]
    exact getD_append_cases st.nsStore _ j default
  refine ⟨?_, ?_, ?_, ?_, ?_, ?_, ?_, ?_, ?_⟩
  · simp
  · intro s hs
    exact Nat.lt_of_lt_of_le (h2 s hs) (by simp)
  · exact h3
  · exact h4
  · intro j hj x hx
    rw [hg] at hx
    by_cases hc : j = st.nsStore.length
    · rw [if_pos hc] at hx
      simp at hx
    · rw [if_neg hc] at hx
      simp only [List.length_append, List.length_cons, List.length_nil] at hj
      exact h5 j (by omega) x hx
  · intro j hj s hs
    rw [hg]
    by_cases hc : j = st.nsStore.length
    · rw [if_pos hc]
      have := h2 s hs
      show List.count s ([] : List Nat) = if (st.getSchema s).nsId = j then 1 + collMult st s else 0
      rw [List.count_nil, if_neg (by omega)]
    · rw [if_neg hc]
      simp only [List.length_append, List.length_cons, List.length_nil] at hj
      exact h6 j (by omega) s hs
  · intro j hj
    rw [hg]
    by_cases hc : j = st.nsStore.length
    · rw [if_pos hc]
      exact List.sorted_nil
    · rw [if_neg hc]
      simp only [List.length_append, List.length_cons, List.length_nil] at hj
      exact h7 j (by omega)
  · intro p hp
    simp only [List.mem_append, List.mem_singleton] at hp
    rw [hg]
    rcases hp with hp | hp
    · obtain ⟨hlt, hname⟩ := h8 p hp
      simp only [List.length_append, List.length_cons, List.length_nil]
      refine ⟨by omega, ?_⟩
      rw [if_neg (by omega)]
      exact hname
    · subst hp
      simp only [List.length_append, List.length_cons, List.length_nil]
      refine ⟨by omega, ?_⟩
      simp
  · exact h9

theorem extract_spec (st : BState) (name : String) (h : WFState st) :
    WFState (extractNamespace st name).1
    ∧ (extractNamespace st name).2.1 < (extractNamespace st name).1.nsStore.length
    ∧ (extractNamespace st name).1.schemaStore = st.schemaStore
    ∧ (extractNamespace st name).1.collectionStore = st.collectionStore
    ∧ (∃ t, (extractNamespace st name).1.nsMap = st.nsMap ++ t)
    ∧ st.nsStore.length ≤ (extractNamespace st name).1.nsStore.length
    ∧ (∀ j, j < st.nsStore.length → (extractNamespace st name).1.getNs j = st.getNs j) := by
  cases hA : headIsAtSign ((splitSlash name).headD "") with
  | false =>
      rw [extractNamespace_noAt st name hA]
      exact ⟨h, h.1, rfl, rfl, ⟨[], by simp⟩, Nat.le_refl _, fun j hj => rfl⟩
  | true =>
      cases hL : lookupStr (dropFirstChar ((splitSlash name).headD "")) st.nsMap with
      | some i =>
          rw [extractNamespace_found st name i hA hL]
          have hi : i < st.nsStore.length := (h.2.2.2.2.2.2.2.1 _ (lookupStr_mem _ _ _ hL)).1
          exact ⟨h, hi, rfl, rfl, ⟨[], by simp⟩, Nat.le_refl _, fun j hj => rfl⟩
      | none =>
          rw [extractNamespace_fresh st name hA hL]
          refine ⟨wf_freshNs st _ h, ?_, rfl, rfl, ⟨[(dropFirstChar ((splitSlash name).headD ""), st.nsStore.length)], rfl⟩, ?_, ?_⟩
          · simp
          · simp
          · intro j hj
            simp only [BState.getNs]
            exact getD_append_lt _ _ _ _ hj

mutual
theorem wf_runOp (sid : Nat) (op : SchemaOp) (st : BState) (h : WFState st) :
    WFState (runOp sid op st) := by
  cases op with
  | typeField tag n req => exact wf_appendField sid _ st h
  | structRef n ref req => exact wf_appendField sid _ st h
  | structInline n cb req =>
      show WFState (appendField sid _
        (runCb (allocSchema (st.getSchema sid).nsId ((st.getSchema sid).name ++ "/" ++ n) st).2
          cb
          (allocSchema (st.getSchema sid).nsId ((st.getSchema sid).name ++ "/" ++ n) st).1))
      refine wf_appendField _ _ _ (wf_runCb _ cb _ ?_)
      exact wf_allocSchema _ _ _ (nsId_lt_of_wf st sid h) h

theorem wf_runCb (sid : Nat) (cb : SchemaCb) (st : BState) (h : WFState st) :
    WFState (runCb sid cb st) := by
  cases cb with
  | done => exact h
  | seq op rest =>
      rw [runCb_seq]
      exact wf_runCb sid rest _ (wf_runOp sid op st h)
end

theorem wf_setKeyState (cid : Nat) (ks : List String) (st : BState) (h : WFState st) :
    WFState (setKey cid ks st) := wf_setKey cid ks st h

theorem wf_runCollOps (cid sid : Nat) (ops : List CollOp) (st : BState) (h : WFState st) :
    WFState (runCollOps cid sid ops st) := by
  induction ops generalizing st with
  | nil => exact h
  | cons op rest ih =>
      cases op with
      | schemaOp op2 => exact ih _ (wf_runOp sid op2 st h)
      | key names => exact ih _ (wf_setKey cid names st h)

theorem wf_declSchema (name : String) (cb : SchemaCb) (st : BState) (h : WFState st) :
    WFState (declSchema name cb st).1 := by
  obtain ⟨hw, hlt, _⟩ := extract_spec st name h
  exact wf_runCb _ cb _ (wf_allocSchema _ _ _ hlt hw)

theorem wf_declCollection (name : String) (ops : List CollOp) (st : BState) (h : WFState st) :
    WFState (declCollection name ops st).1 := by
  obtain ⟨hw, hlt, _⟩ := extract_spec st name h
  exact wf_runCollOps _ _ ops _ (wf_allocCollection _ _ _ hlt hw)

theorem wf_declDispatch (name : String) (arg : DispatchArg) (st : BState) (h : WFState st) :
    WFState (declDispatch name arg st) := by
  obtain ⟨hw, hlt, _⟩ := extract_spec st name h
  cases arg with
  | ref fqn => exact wf_pushDispatch _ _ _ hw
  | inline cb =>
      show WFState (pushDispatch _ _ (runCb _ cb (allocSchema _ _ _).1))
      exact wf_pushDispatch _ _ _ (wf_runCb _ cb _ (wf_allocSchema _ _ _ hlt hw))

theorem wf_runDecl (d : Decl) (st : BState) (h : WFState st) : WFState (runDecl d st) := by
  cases d with
  | schemaDecl n cb => exact wf_declSchema n cb st h
  | collectionDecl n ops => exact wf_declCollection n ops st h
  | dispatchDecl n arg => exact wf_declDispatch n arg st h

theorem wf_initState : WFState initState := by
  refine ⟨by simp [initState], ?_, ?_, ?_, ?_, ?_, ?_, ?_, ?_⟩
  · intro s hs
    simp [initState] at hs
  · intro c hc
    simp [initState] at hc
  · intro s hs
    simp [initState] at hs
  · intro j hj x hx
    simp [initState] at hj
    subst hj
    simp [initState, BState.getNs] at hx
  · intro j hj s hs
    simp [initState] at hs
  · intro j hj
    simp [initState] at hj
    subst hj
    show List.Sorted (· ≤ ·) ([] : List Nat)
    exact List.sorted_nil
  · intro p hp
    simp only [initState, List.mem_singleton] at hp
    subst hp
    exact ⟨by simp [initState], rfl⟩
  · intro s hs
    simp [initState] at hs

theorem wfState_runDecls (ds : List Decl) (st : BState) (h : WFState st) :
    WFState (runDecls ds st) := by
  induction ds generalizing st with
  | nil => exact h
  | cons d ds ih => exact ih _ (wf_runDecl d st h)

theorem getSchema_appendField_nsId (sid : Nat) (f : SchemaField) (st : BState) (j : Nat) :
    ((appendField sid f st).getSchema j).nsId = (st.getSchema j).nsId := by
  rw [getSchema_appendField]
  split
  · rename_i hc
    rw [hc.1]
  · rfl

theorem getSchema_appendField_name (sid : Nat) (f : SchemaField) (st : BState) (j : Nat) :
    ((appendField sid f st).getSchema j).name = (st.getSchema j).name := by
  rw [getSchema_appendField]
  split
  · rename_i hc
    rw [hc.1]
  · rfl

theorem frame_appendField (sid : Nat) (f : SchemaField) (st : BState) :
    RunFrame sid st (appendField sid f st) := by
  refine ⟨nsMap_appendField sid f st, collectionStore_appendField sid f st,
    by rw [nsStore_appendField], fun j => by rw [getNs_appendField],
    fun j => by rw [getNs_appendField], fun j => by rw [getNs_appendField],
    Nat.le_of_eq (schemaStore_length_appendField sid f st).symm, ?_,
    getSchema_appendField_nsId sid f st sid, getSchema_appendField_name sid f st sid⟩
  intro j hj hne
  rw [getSchema_appendField, if_neg (by intro hc; exact hne hc.1)]

theorem frame_allocSchema (sid nsId : Nat) (name : String) (st : BState)
    (hs : sid < st.schemaStore.length) :
    RunFrame sid st (allocSchema nsId name st).1 := by
  refine ⟨nsMap_allocSchema nsId name st, collectionStore_allocSchema nsId name st,
    nsStore_length_allocSchema nsId name st, ?_, ?_, ?_, ?_, ?_, ?_, ?_⟩
  · intro j
    rw [getNs_allocSchema]
    split <;> [rename_i hc; rfl]
    rw [hc.1]
  · intro j
    rw [getNs_allocSchema]
    split <;> [rename_i hc; rfl]
    rw [hc.1]
  · intro j
    rw [getNs_allocSchema]
    split <;> [rename_i hc; rfl]
    rw [hc.1]
  · rw [schemaStore_allocSchema]
    simp
  · intro j hj hne
    rw [getSchema_allocSchema, if_neg (by omega)]
  · rw [getSchema_allocSchema, if_neg (by omega)]
  · rw [getSchema_allocSchema, if_neg (by omega)]

mutual
theorem frame_runOp (sid : Nat) (op : SchemaOp) (st : BState)
    (hs : sid < st.schemaStore.length) : RunFrame sid st (runOp sid op st) := by
  cases op with
  | typeField tag n req => exact frame_appendField sid _ st
  | structRef n ref req => exact frame_appendField sid _ st
  | structInline n cb req =>
      show RunFrame sid st (appendField sid _
        (runCb (allocSchema (st.getSchema sid).nsId ((st.getSchema sid).name ++ "/" ++ n) st).2
          cb
          (allocSchema (st.getSchema sid).nsId ((st.getSchema sid).name ++ "/" ++ n) st).1))
      have f1 : RunFrame sid st
          (allocSchema (st.getSchema sid).nsId ((st.getSchema sid).name ++ "/" ++ n) st).1 :=
        frame_allocSchema sid _ _ st hs
      have f2 : RunFrame (allocSchema (st.getSchema sid).nsId
            ((st.getSchema sid).name ++ "/" ++ n) st).2
          (allocSchema (st.getSchema sid).nsId ((st.getSchema sid).name ++ "/" ++ n) st).1
          (runCb (allocSchema (st.getSchema sid).nsId
              ((st.getSchema sid).name ++ "/" ++ n) st).2 cb
            (allocSchema (st.getSchema sid).nsId ((st.getSchema sid).name ++ "/" ++ n) st).1) := by
        refine frame_runCb _ cb _ ?_
        rw [allocSchema_snd, schemaStore_allocSchema]
        simp
      obtain ⟨a1, a2, a3, a4, a5, a6, a7, a8, a9, a10⟩ := f1
      obtain ⟨b1, b2, b3, b4, b5, b6, b7, b8, b9, b10⟩ := f2
      have hsid2 : ∀ stz, stz = (runCb (allocSchema (st.getSchema sid).nsId
          ((st.getSchema sid).name ++ "/" ++ n) st).2 cb
            (allocSchema (st.getSchema sid).nsId ((st.getSchema sid).name ++ "/" ++ n) st).1) →
          stz.getSchema sid = st.getSchema sid := by
        intro stz hz
        subst hz
        rw [b8 sid (by rw [schemaStore_allocSchema]; simp; omega)
            (by rw [allocSchema_snd]; omega)]
        rw [getSchema_allocSchema, if_neg (by omega)]
      have hsid3 := hsid2 _ rfl
      refine ⟨?_, ?_, ?_, ?_, ?_, ?_, ?_, ?_, ?_, ?_⟩
      · rw [nsMap_appendField, b1, a1]
      · rw [collectionStore_appendField, b2, a2]
      · rw [nsStore_appendField, b3, a3]
      · intro j
        rw [getNs_appendField, b4, a4]
      · intro j
        rw [getNs_appendField, b5, a5]
      · intro j
        rw [getNs_appendField, b6, a6]
      · rw [schemaStore_length_appendField]
        have : st.schemaStore.length ≤
            (allocSchema (st.getSchema sid).nsId
              ((st.getSchema sid).name ++ "/" ++ n) st).1.schemaStore.length := by
          rw [schemaStore_allocSchema]
          simp
        omega
      · intro j hj hne
        rw [getSchema_appendField, if_neg (by intro hc; exact hne hc.1)]
        rw [b8 j (by rw [schemaStore_allocSchema]; simp; omega)
            (by rw [allocSchema_snd]; omega)]
        rw [getSchema_allocSchema, if_neg (by omega)]
      · rw [getSchema_appendField_nsId, hsid3]
      · rw [getSchema_appendField_name, hsid3]

theorem frame_runCb (sid : Nat) (cb : SchemaCb) (st : BState)
    (hs : sid < st.schemaStore.length) : RunFrame sid st (runCb sid cb st) := by
  cases cb with
  | done =>
      exact ⟨rfl, rfl, rfl, fun j => rfl, fun j => rfl, fun j => rfl, Nat.le_refl _,
        fun j hj hne => rfl, rfl, rfl⟩
  | seq op rest =>
      rw [runCb_seq]
      have f1 : RunFrame sid st (runOp sid op st) := frame_runOp sid op st hs
      have f2 : RunFrame sid (runOp sid op st) (runCb sid rest (runOp sid op st)) := by
        refine frame_runCb sid rest _ ?_
        have := f1.2.2.2.2.2.2.1
        omega
      obtain ⟨a1, a2, a3, a4, a5, a6, a7, a8, a9, a10⟩ := f1
      obtain ⟨b1, b2, b3, b4, b5, b6, b7, b8, b9, b10⟩ := f2
      refine ⟨?_, ?_, ?_, ?_, ?_, ?_, ?_, ?_, ?_, ?_⟩
      · rw [b1, a1]
      · rw [b2, a2]
      · rw [b3, a3]
      · intro j
        rw [b4 j, a4 j]
      · intro j
        rw [b5 j, a5 j]
      · intro j
        rw [b6 j, a6 j]
      · omega
      · intro j hj hne
        rw [b8 j (by omega) hne, a8 j hj hne]
      · rw [b9, a9]
      · rw [b10, a10]
end

theorem collMult_setKey (cid : Nat) (ks : List String) (st : BState) (s : Nat) :
    collMult (setKey cid ks st) s = collMult st s := by
  rw [collMult, collMult, multOf_eq_count_map, multOf_eq_count_map]
  show ((st.collectionStore.set cid
      { st.collectionStore.getD cid default with key := ks }).map (fun c => c.schemaId)).count s =
    (st.collectionStore.map (fun c => c.schemaId)).count s
  rw [map_schemaId_setKey st.collectionStore cid ks]

theorem collMult_eq_of_collectionStore_eq (st st2 : BState)
    (h : st2.collectionStore = st.collectionStore) (s : Nat) :
    collMult st2 s = collMult st s := by
  rw [collMult, collMult, h]

theorem collframe_runCollOps (cid sid : Nat) (ops : List CollOp) (st : BState)
    (hs : sid < st.schemaStore.length) :
    (runCollOps cid sid ops st).nsMap = st.nsMap
    ∧ (∀ s, collMult (runCollOps cid sid ops st) s = collMult st s)
    ∧ ((runCollOps cid sid ops st).getColl cid).schemaId = (st.getColl cid).schemaId
    ∧ ((runCollOps cid sid ops st).getColl cid).name = (st.getColl cid).name
    ∧ (∀ j, ((runCollOps cid sid ops st).getNs j).name = (st.getNs j).name)
    ∧ ((runCollOps cid sid ops st).getSchema sid).nsId = (st.getSchema sid).nsId
    ∧ ((runCollOps cid sid ops st).getSchema sid).name = (st.getSchema sid).name
    ∧ st.schemaStore.length ≤ (runCollOps cid sid ops st).schemaStore.length := by
  induction ops generalizing st with
  | nil =>
      exact ⟨rfl, fun s => rfl, rfl, rfl, fun j => rfl, rfl, rfl, Nat.le_refl _⟩
  | cons op rest ih =>
      cases op with
      | schemaOp op2 =>
          simp only [runCollOps]
          obtain ⟨a1, a2, a3, a4, a5, a6, a7, a8, a9, a10⟩ := frame_runOp sid op2 st hs
          obtain ⟨b1, b2, b3, b4, b5, b6, b7, b8⟩ := ih (runOp sid op2 st) (by omega)
          refine ⟨by rw [b1, a1], ?_, ?_, ?_, ?_, by rw [b6, a9], by rw [b7, a10], by omega⟩
          · intro s
            rw [b2 s, collMult_eq_of_collectionStore_eq st (runOp sid op2 st) a2]
          · rw [b3]
            show ((runOp sid op2 st).collectionStore.getD cid default).schemaId =
              (st.getColl cid).schemaId
            rw [a2]
            rfl
          · rw [b4]
            show ((runOp sid op2 st).collectionStore.getD cid default).name =
              (st.getColl cid).name
            rw [a2]
            rfl
          · intro j
            rw [b5 j, a4 j]
      | key names =>
          simp only [runCollOps]
          obtain ⟨b1, b2, b3, b4, b5, b6, b7, b8⟩ := ih (setKey cid names st) (by
            rw [schemaStore_setKey] at *
            exact hs)
          refine ⟨by rw [b1, nsMap_setKey], ?_, ?_, ?_, ?_,
            by rw [b6, getSchema_setKey], by rw [b7, getSchema_setKey], ?_⟩
          · intro s
            rw [b2 s, collMult_setKey]
          · rw [b3, getColl_setKey]
            split
            · rfl
            · rfl
          · rw [b4, getColl_setKey]
            split
            · rfl
            · rfl
          · intro j
            rw [b5 j, getNs_setKey]
          · rw [schemaStore_setKey] at b8
            exact b8

theorem fields_runCb_calls (calls : List (String × String)) (sid : Nat) (st : BState)
    (hs : sid < st.schemaStore.length) :
    ((runCb sid (cbOfCalls calls) st).getSchema sid).fields =
      (st.getSchema sid).fields ++
        calls.map (fun c => { name := c.2, type := c.1, required := true }) := by
  induction calls generalizing st with
  | nil =>
      show (st.getSchema sid).fields = _
      simp [cbOfCalls]
  | cons c cs ih =>
      show ((runCb sid (cbOfCalls cs)
          (appendField sid { name := c.2, type := c.1, required := true } st)).getSchema
            sid).fields = _
      rw [ih _ (by rw [schemaStore_length_appendField]; exact hs)]
      rw [getSchema_appendField, if_pos ⟨rfl, hs⟩]
      simp

theorem nsMap_extend_runDecl (d : Decl) (st : BState) (h : WFState st) :
    ∃ t, (runDecl d st).nsMap = st.nsMap ++ t := by
  obtain ⟨hw, hlt, hss, hcs, ⟨t1, hmap⟩, hle, hns⟩ := extract_spec st
    (match d with
     | Decl.schemaDecl n _ => n
     | Decl.collectionDecl n _ => n
     | Decl.dispatchDecl n _ => n) h
  cases d with
  | schemaDecl n cb =>
      refine ⟨t1, ?_⟩
      show (runCb (allocSchema (extractNamespace st n).2.1 (extractNamespace st n).2.2
          (extractNamespace st n).1).2 cb
          (allocSchema (extractNamespace st n).2.1 (extractNamespace st n).2.2
            (extractNamespace st n).1).1).nsMap = st.nsMap ++ t1
      have hf := frame_runCb (allocSchema (extractNamespace st n).2.1 (extractNamespace st n).2.2
          (extractNamespace st n).1).2 cb
          (allocSchema (extractNamespace st n).2.1 (extractNamespace st n).2.2
            (extractNamespace st n).1).1
          (by rw [allocSchema_snd, schemaStore_allocSchema]; simp)
      rw [hf.1, nsMap_allocSchema]
      exact hmap
  | collectionDecl n ops =>
      refine ⟨t1, ?_⟩
      show (runCollOps (allocCollection (extractNamespace st n).2.1 (extractNamespace st n).2.2
          (extractNamespace st n).1).2
          ((allocCollection (extractNamespace st n).2.1 (extractNamespace st n).2.2
            (extractNamespace st n).1).1.getColl
              (allocCollection (extractNamespace st n).2.1 (extractNamespace st n).2.2
                (extractNamespace st n).1).2).schemaId
          ops
          (allocCollection (extractNamespace st n).2.1 (extractNamespace st n).2.2
            (extractNamespace st n).1).1).nsMap = st.nsMap ++ t1
      have hcid : ((allocCollection (extractNamespace st n).2.1 (extractNamespace st n).2.2
          (extractNamespace st n).1).1.getColl
            (allocCollection (extractNamespace st n).2.1 (extractNamespace st n).2.2
              (extractNamespace st n).1).2).schemaId =
          (extractNamespace st n).1.schemaStore.length := by
        rw [allocCollection_snd, getColl_allocCollection, if_pos rfl]
      have hf := collframe_runCollOps (allocCollection (extractNamespace st n).2.1
          (extractNamespace st n).2.2 (extractNamespace st n).1).2
          ((allocCollection (extractNamespace st n).2.1 (extractNamespace st n).2.2
            (extractNamespace st n).1).1.getColl
              (allocCollection (extractNamespace st n).2.1 (extractNamespace st n).2.2
                (extractNamespace st n).1).2).schemaId
          ops
          (allocCollection (extractNamespace st n).2.1 (extractNamespace st n).2.2
            (extractNamespace st n).1).1
          (by rw [hcid, schemaStore_allocCollection]; simp)
      rw [hf.1, nsMap_allocCollection]
      exact hmap
  | dispatchDecl n arg =>
      cases arg with
      | ref fqn =>
          refine ⟨t1, ?_⟩
          show (pushDispatch (extractNamespace st n).2.1 _ (extractNamespace st n).1).nsMap =
            st.nsMap ++ t1
          rw [nsMap_pushDispatch]
          exact hmap
      | inline cb =>
          refine ⟨t1, ?_⟩
          show (pushDispatch (extractNamespace st n).2.1 _
            (runCb (allocSchema (extractNamespace st n).2.1 (extractNamespace st n).2.2
                (extractNamespace st n).1).2 cb
              (allocSchema (extractNamespace st n).2.1 (extractNamespace st n).2.2
                (extractNamespace st n).1).1)).nsMap = st.nsMap ++ t1
          have hf := frame_runCb (allocSchema (extractNamespace st n).2.1
              (extractNamespace st n).2.2 (extractNamespace st n).1).2 cb
              (allocSchema (extractNamespace st n).2.1 (extractNamespace st n).2.2
                (extractNamespace st n).1).1
              (by rw [allocSchema_snd, schemaStore_allocSchema]; simp)
          rw [nsMap_pushDispatch, hf.1, nsMap_allocSchema]
          exact hmap

theorem nsMap_extend_runDecls (ds : List Decl) (st : BState) (h : WFState st) :
    ∃ t, (runDecls ds st).nsMap = st.nsMap ++ t := by
  induction ds generalizing st with
  | nil =>
      refine ⟨[], ?_⟩
      show st.nsMap = st.nsMap ++ []
      simp
  | cons d ds ih =>
      obtain ⟨t1, h1⟩ := nsMap_extend_runDecl d st h
      obtain ⟨t2, h2⟩ := ih (runDecl d st) (wf_runDecl d st h)
      refine ⟨t1 ++ t2, ?_⟩
      show (runDecls ds (runDecl d st)).nsMap = st.nsMap ++ (t1 ++ t2)
      rw [h2, h1, List.append_assoc]

/-!  The claims. -/

/-- C8: after declaring schema `@hello/full-name` (string fields `first-name`,
`last-name`), collection `@hello/users` with `key("id")`, uint fields `id` and
`age`, and a struct field `name` referencing `@hello/full-name`, and dispatch
`@hello/change-name` referencing `@hello/full-name`, the namespace `hello`
holds 3 schemas, 1 collection named `users` with key `["id"]`, and 1 dispatch
named `change-name` whose requestType is `@hello/full-name`. -/
theorem C8_theorem :
    lookupStr "hello"
        (runDecls
          [Decl.schemaDecl "@hello/full-name"
            (cbOfCalls [("string", "first-name"), ("string", "last-name")]),
           Decl.collectionDecl "@hello/users"
            [CollOp.key ["id"],
             CollOp.schemaOp (SchemaOp.typeField "uint" "id" true),
             CollOp.schemaOp (SchemaOp.typeField "uint" "age" true),
             CollOp.schemaOp (SchemaOp.structRef "name" "@hello/full-name" true)],
           Decl.dispatchDecl "@hello/change-name" (DispatchArg.ref "@hello/full-name")]
          initState).nsMap = some 1
    ∧ ((runDecls
          [Decl.schemaDecl "@hello/full-name"
            (cbOfCalls [("string", "first-name"), ("string", "last-name")]),
           Decl.collectionDecl "@hello/users"
            [CollOp.key ["id"],
             CollOp.schemaOp (SchemaOp.typeField "uint" "id" true),
             CollOp.schemaOp (SchemaOp.typeField "uint" "age" true),
             CollOp.schemaOp (SchemaOp.structRef "name" "@hello/full-name" true)],
           Decl.dispatchDecl "@hello/change-name" (DispatchArg.ref "@hello/full-name")]
          initState).getNs 1).schemas.length = 3
    ∧ ((runDecls
          [Decl.schemaDecl "@hello/full-name"
            (cbOfCalls [("string", "first-name"), ("string", "last-name")]),
           Decl.collectionDecl "@hello/users"
            [CollOp.key ["id"],
             CollOp.schemaOp (SchemaOp.typeField "uint" "id" true),
             CollOp.schemaOp (SchemaOp.typeField "uint" "age" true),
             CollOp.schemaOp (SchemaOp.structRef "name" "@hello/full-name" true)],
           Decl.dispatchDecl "@hello/change-name" (DispatchArg.ref "@hello/full-name")]
          initState).getNs 1).collections = [0]
    ∧ ((runDecls
          [Decl.schemaDecl "@hello/full-name"
            (cbOfCalls [("string", "first-name"), ("string", "last-name")]),
           Decl.collectionDecl "@hello/users"
            [CollOp.key ["id"],
             CollOp.schemaOp (SchemaOp.typeField "uint" "id" true),
             CollOp.schemaOp (SchemaOp.typeField "uint" "age" true),
             CollOp.schemaOp (SchemaOp.structRef "name" "@hello/full-name" true)],
           Decl.dispatchDecl "@hello/change-name" (DispatchArg.ref "@hello/full-name")]
          initState).getColl 0).name = "users"
    ∧ ((runDecls
          [Decl.schemaDecl "@hello/full-name"
            (cbOfCalls [("string", "first-name"), ("string", "last-name")]),
           Decl.collectionDecl "@hello/users"
            [CollOp.key ["id"],
             CollOp.schemaOp (SchemaOp.typeField "uint" "id" true),
             CollOp.schemaOp (SchemaOp.typeField "uint" "age" true),
             CollOp.schemaOp (SchemaOp.structRef "name" "@hello/full-name" true)],
           Decl.dispatchDecl "@hello/change-name" (DispatchArg.ref "@hello/full-name")]
          initState).getColl 0).key = ["id"]
    ∧ ((runDecls
          [Decl.schemaDecl "@hello/full-name"
            (cbOfCalls [("string", "first-name"), ("string", "last-name")]),
           Decl.collectionDecl "@hello/users"
            [CollOp.key ["id"],
             CollOp.schemaOp (SchemaOp.typeField "uint" "id" true),
             CollOp.schemaOp (SchemaOp.typeField "uint" "age" true),
             CollOp.schemaOp (SchemaOp.structRef "name" "@hello/full-name" true)],
           Decl.dispatchDecl "@hello/change-name" (DispatchArg.ref "@hello/full-name")]
          initState).getNs 1).dispatches =
        [{ name := "change-name", requestType := "@hello/full-name" }] := by
  decide

/-- C1 (counterexample): the claim says every declared Schema appears exactly
once in its namespace's `schemas` sequence, but a Collection's paired
CollectionSchema is pushed twice — once by the `Schema` super-constructor and
once more by the `Collection` constructor — so after
`collection("@ns/x", _)` the schema (id 0, owned by namespace 1) occurs
twice. -/
theorem C1_counterexample :
    ((runDecls [Decl.collectionDecl "@ns/x" []] initState).getSchema 0).nsId = 1
    ∧ ((runDecls [Decl.collectionDecl "@ns/x" []] initState).getNs 1).schemas = [0, 0]
    ∧ ¬(((runDecls [Decl.collectionDecl "@ns/x" []] initState).getNs 1).schemas.count 0 = 1) := by
  decide

/-- C1 (amended): for every declared Schema `S` of a reachable builder state,
`S.fqn = "@" + S.namespace.name + "/" + S.name`, and `S` appears in
`S.namespace.schemas` (and in no other namespace) exactly `1 + collMult S`
times — once from the `Schema` constructor plus once more if `S` is a
Collection's paired CollectionSchema (`collMult S ≤ 1`) — with every
namespace's `schemas` sequence listing ids in allocation (declaration)
order. -/
theorem C1_theorem (ds : List Decl) (sid : Nat)
    (h : sid < (runDecls ds initState).schemaStore.length) :
    fqnOf (runDecls ds initState) sid =
      "@" ++ ((runDecls ds initState).getNs
          ((runDecls ds initState).getSchema sid).nsId).name
        ++ "/" ++ ((runDecls ds initState).getSchema sid).name
    ∧ ((runDecls ds initState).getSchema sid).nsId < (runDecls ds initState).nsStore.length
    ∧ (∀ nsId < (runDecls ds initState).nsStore.length,
        ((runDecls ds initState).getNs nsId).schemas.count sid =
          if ((runDecls ds initState).getSchema sid).nsId = nsId
          then 1 + collMult (runDecls ds initState) sid else 0)
    ∧ collMult (runDecls ds initState) sid ≤ 1
    ∧ (∀ nsId < (runDecls ds initState).nsStore.length,
        List.Sorted (· ≤ ·) ((runDecls ds initState).getNs nsId).schemas) := by
  have hw := wfState_runDecls ds initState wf_initState
  obtain ⟨h1, h2, h3, h4, h5, h6, h7, h8, h9⟩ := hw
  exact ⟨rfl, h2 sid h, fun nsId hns => h6 nsId hns sid h, h4 sid h, h7⟩

/-- C1 (witness). -/
theorem C1_witness :
    0 < (runDecls [Decl.schemaDecl "@a/b" SchemaCb.done] initState).schemaStore.length
    ∧ fqnOf (runDecls [Decl.schemaDecl "@a/b" SchemaCb.done] initState) 0 =
        "@" ++ ((runDecls [Decl.schemaDecl "@a/b" SchemaCb.done] initState).getNs
            ((runDecls [Decl.schemaDecl "@a/b" SchemaCb.done] initState).getSchema 0).nsId).name
          ++ "/" ++ ((runDecls [Decl.schemaDecl "@a/b" SchemaCb.done] initState).getSchema 0).name := by
  refine ⟨by decide, ?_⟩
  exact (C1_theorem [Decl.schemaDecl "@a/b" SchemaCb.done] 0 (by decide)).1

/-- C3 (counterexample): the claim says a finalization failure in one Registry
does not prevent finalization of the others and the aggregate reports which
Registry failed; but when the first of two registered builders throws in the
`beforeExit` loop, only 1 of the 2 `_build()` calls is ever made, and the
escaping error is the raw compiler exception. -/
theorem C3_counterexample :
    (beforeExitRun [Except.error "boom", Except.ok ()]).1 = 1
    ∧ ¬((beforeExitRun [Except.error "boom", Except.ok ()]).1 = 2)
    ∧ (beforeExitRun [Except.error "boom", Except.ok ()]).2 = some "boom" := by
  decide

/-- C3 (amended): when one Registry's `_build()` throws during the
`beforeExit` loop, the loop aborts at that Registry: every earlier builder and
the failing one are invoked, Registries created later are never finalized,
and the exception escapes as-is without identifying the failing Registry or
output root. -/
theorem C3_theorem (pre post : List (Except String Unit)) (e : String)
    (h : ∀ x ∈ pre, x = Except.ok ()) :
    beforeExitRun (pre ++ Except.error e :: post) = (pre.length + 1, some e) := by
  induction pre with
  | nil => rfl
  | cons x xs ih =>
      have hx := h x (List.mem_cons_self x xs)
      subst hx
      show ((beforeExitRun (xs ++ Except.error e :: post)).1 + 1,
        (beforeExitRun (xs ++ Except.error e :: post)).2) = (xs.length + 1 + 1, some e)
      rw [ih (fun y hy => h y (List.mem_cons_of_mem _ hy))]

/-- C3 (witness). -/
theorem C3_witness :
    (∀ x ∈ [(Except.ok () : Except String Unit)], x = Except.ok ())
    ∧ beforeExitRun ([Except.ok ()] ++ Except.error "boom" :: [Except.ok ()]) =
        (2, some "boom") := by
  refine ⟨?_, C3_theorem [Except.ok ()] [Except.ok ()] "boom" ?_⟩
  · intro x hx
    simpa using hx
  · intro x hx
    simpa using hx

theorem getD_mem {α : Type} (l : List α) (i : Nat) (d : α) (h : i < l.length) :
    l.getD i d ∈ l := by
  induction l generalizing i with
  | nil => simp at h
  | cons a t ih =>
      cases i with
      | zero => exact List.mem_cons_self a t
      | succ i =>
          refine List.mem_cons_of_mem a ?_
          exact ih i (by simpa using h)

theorem getD_append_ge {α : Type} (l t : List α) (i : Nat) (d : α) (h : l.length ≤ i) :
    (l ++ t).getD i d = t.getD (i - l.length) d := by
  induction l generalizing i with
  | nil => simp
  | cons a l ih =>
      cases i with
      | zero => simp at h
      | succ i =>
          show (l ++ t).getD i d = t.getD (i + 1 - (l.length + 1)) d
          rw [ih i (by simpa using h)]
          congr 1
          omega

theorem eventPhase_schemaPhase (b : BuilderObj) (e : BuildEvent)
    (h : e ∈ schemaPhase b) : eventPhase e = 0 := by
  simp only [schemaPhase, List.mem_cons, List.mem_append, List.mem_flatMap,
    List.mem_map, List.mem_singleton, List.not_mem_nil, or_false] at h
  rcases h with (h | ⟨ns2, hns2, x2, hx2, he⟩) | h
  · subst h
    rfl
  · subst he
    rfl
  · subst h
    rfl

theorem eventPhase_dbPhase (b : BuilderObj) (e : BuildEvent)
    (h : e ∈ dbPhase b) : eventPhase e = 1 := by
  simp only [dbPhase, List.mem_cons, List.mem_append, List.mem_flatMap,
    List.mem_map, List.mem_singleton, List.not_mem_nil, or_false] at h
  rcases h with (h | ⟨ns2, hns2, x2, hx2, he⟩) | h
  · subst h
    rfl
  · subst he
    rfl
  · subst h
    rfl

theorem eventPhase_dispatchPhase (b : BuilderObj) (e : BuildEvent)
    (h : e ∈ dispatchPhase b) : eventPhase e = 2 := by
  simp only [dispatchPhase, List.mem_cons, List.mem_append, List.mem_flatMap,
    List.mem_map, List.mem_singleton, List.not_mem_nil, or_false] at h
  rcases h with (h | ⟨ns2, hns2, x2, hx2, he⟩) | h
  · subst h
    rfl
  · subst he
    rfl
  · subst h
    rfl

/-- C4: within one Registry's `_build()`, the three compiler pipelines run
strictly in the order hyperschema (phase 0), then hyperdb storage binding
(phase 1), then hyperdispatch (phase 2): for any two positions of the call
trace, a strictly smaller pipeline phase forces a strictly earlier index —
so every schema event precedes every storage/dispatch event and every
storage event precedes every dispatch event — and both `schemaToDisk` and
`dbToDisk` occur in the trace, so each pipeline also persists its output
before the next one is invoked. -/
theorem C4_theorem (b : BuilderObj) :
    (∀ i j, i < (buildTrace b).length → j < (buildTrace b).length →
      eventPhase ((buildTrace b).getD i BuildEvent.schemaToDisk) <
        eventPhase ((buildTrace b).getD j BuildEvent.schemaToDisk) → i < j)
    ∧ BuildEvent.schemaToDisk ∈ buildTrace b
    ∧ BuildEvent.dbToDisk ∈ buildTrace b := by
  have htr : buildTrace b = schemaPhase b ++ (dbPhase b ++ dispatchPhase b) := by
    rw [buildTrace, List.append_assoc]
  have hphase : ∀ i, i < (buildTrace b).length →
      eventPhase ((buildTrace b).getD i BuildEvent.schemaToDisk) =
        if i < (schemaPhase b).length then 0
        else if i < (schemaPhase b).length + (dbPhase b).length then 1 else 2 := by
    intro i hi
    rw [htr] at hi ⊢
    simp only [List.length_append] at hi
    by_cases h1 : i < (schemaPhase b).length
    · rw [getD_append_lt _ _ _ _ h1, if_pos h1]
      exact eventPhase_schemaPhase b _ (getD_mem _ _ _ h1)
    · push_neg at h1
      rw [getD_append_ge _ _ _ _ h1, if_neg (by omega)]
      by_cases h2 : i - (schemaPhase b).length < (dbPhase b).length
      · rw [getD_append_lt _ _ _ _ h2, if_pos (by omega)]
        exact eventPhase_dbPhase b _ (getD_mem _ _ _ h2)
      · push_neg at h2
        rw [getD_append_ge _ _ _ _ h2, if_neg (by omega)]
        refine eventPhase_dispatchPhase b _ (getD_mem _ _ _ ?_)
        omega
  refine ⟨?_, ?_, ?_⟩
  · intro i j hi hj hlt
    rw [hphase i hi, hphase j hj] at hlt
    split_ifs at hlt <;> omega
  · rw [htr]
    refine List.mem_append.mpr (Or.inl ?_)
    simp [schemaPhase]
  · rw [htr]
    refine List.mem_append.mpr (Or.inr (List.mem_append.mpr (Or.inl ?_)))
    simp [dbPhase]

/-- C4 (witness). -/
theorem C4_witness :
    eventPhase ((buildTrace (mkBuilder "spec"
        (runDecls [Decl.schemaDecl "@a/b" SchemaCb.done] initState))).getD 0
      BuildEvent.schemaToDisk) <
      eventPhase ((buildTrace (mkBuilder "spec"
          (runDecls [Decl.schemaDecl "@a/b" SchemaCb.done] initState))).getD 3
        BuildEvent.schemaToDisk)
    ∧ eventPhase ((buildTrace (mkBuilder "spec"
        (runDecls [Decl.schemaDecl "@a/b" SchemaCb.done] initState))).getD 3
      BuildEvent.schemaToDisk) <
      eventPhase ((buildTrace (mkBuilder "spec"
          (runDecls [Decl.schemaDecl "@a/b" SchemaCb.done] initState))).getD 5
        BuildEvent.schemaToDisk)
    ∧ 0 < 3
    ∧ 3 < 5 := by
  refine ⟨by decide, by decide, ?_, ?_⟩
  · exact (C4_theorem (mkBuilder "spec"
        (runDecls [Decl.schemaDecl "@a/b" SchemaCb.done] initState))).1 0 3
      (by decide) (by decide) (by decide)
  · exact (C4_theorem (mkBuilder "spec"
        (runDecls [Decl.schemaDecl "@a/b" SchemaCb.done] initState))).1 3 5
      (by decide) (by decide) (by decide)

/-- C10: for every input whose first `/`-separated segment is exactly `"@"`
(such as `"@"` alone or `"@/x"`), namespace extraction succeeds: it returns a
Namespace whose name is the empty string — created on first such reference
and registered in the Registry's map under the key `""` — paired with the
remaining segments rejoined with `"/"` as the local name. -/
theorem C10_theorem (ds : List Decl) (name : String)
    (h : (splitSlash name).headD "" = "@") :
    ((extractNamespace (runDecls ds initState) name).1.getNs
        (extractNamespace (runDecls ds initState) name).2.1).name = ""
    ∧ (extractNamespace (runDecls ds initState) name).2.2 =
        joinSlash (splitSlash name).tail
    ∧ lookupStr "" (extractNamespace (runDecls ds initState) name).1.nsMap =
        some (extractNamespace (runDecls ds initState) name).2.1
    ∧ (lookupStr "" (runDecls ds initState).nsMap = none →
        (extractNamespace (runDecls ds initState) name).1.nsStore.length =
          (runDecls ds initState).nsStore.length + 1
        ∧ (extractNamespace (runDecls ds initState) name).1.nsMap =
            (runDecls ds initState).nsMap ++
              [("", (extractNamespace (runDecls ds initState) name).2.1)]) := by
  have hw := wfState_runDecls ds initState wf_initState
  have hA : headIsAtSign ((splitSlash name).headD "") = true := by
    rw [h]
    rfl
  have hns : dropFirstChar ((splitSlash name).headD "") = "" := by
    rw [h]
    rfl
  cases hL : lookupStr "" (runDecls ds initState).nsMap with
  | some i =>
      have hL2 : lookupStr (dropFirstChar ((splitSlash name).headD ""))
          (runDecls ds initState).nsMap = some i := by
        rw [hns]
        exact hL
      rw [extractNamespace_found (runDecls ds initState) name i hA hL2]
      have hmem := lookupStr_mem "" (runDecls ds initState).nsMap i hL
      have hwf := hw.2.2.2.2.2.2.2.1 _ hmem
      exact ⟨hwf.2, rfl, hL, fun hc => by simp [hL] at hc⟩
  | none =>
      have hL2 : lookupStr (dropFirstChar ((splitSlash name).headD ""))
          (runDecls ds initState).nsMap = none := by
        rw [hns]
        exact hL
      rw [extractNamespace_fresh (runDecls ds initState) name hA hL2, hns]
      refine ⟨?_, rfl, ?_, fun hc => ⟨by simp, rfl⟩⟩
      · show ((((runDecls ds initState).nsStore ++
            [({ name := "", schemas := [], collections := [], dispatches := [] } :
              NamespaceObj)]).getD (runDecls ds initState).nsStore.length default)).name = ""
        rw [getD_append_len]
      · exact lookupStr_append_hit "" (runDecls ds initState).nsMap _ hL

/-- C10 (witness). -/
theorem C10_witness :
    (splitSlash "@/x").headD "" = "@"
    ∧ ((extractNamespace (runDecls [] initState) "@/x").1.getNs
        (extractNamespace (runDecls [] initState) "@/x").2.1).name = ""
    ∧ (extractNamespace (runDecls [] initState) "@/x").2.2 =
        joinSlash (splitSlash "@/x").tail := by
  refine ⟨by decide, ?_, ?_⟩
  · exact (C10_theorem [] "@/x" (by decide)).1
  · exact (C10_theorem [] "@/x" (by decide)).2.1

/-- C9: every Schema produced through any declaration path ends with
`compact = false`, and no operation of the builder surface can make it true:
the constructor's own boolean property `compact` shadows the prototype method
`compact(value)`, so invoking `schema.compact(true)` raises a TypeError
instead of setting the flag. -/
theorem C9_theorem (ds : List Decl) (sid : Nat)
    (h : sid < (runDecls ds initState).schemaStore.length) :
    ((runDecls ds initState).getSchema sid).compact = false
    ∧ schemaOwnProp (runDecls ds initState) sid "compact" = some (JsValue.boolV false)
    ∧ schemaProtoProp (runDecls ds initState) sid "compact" = some JsValue.compactMethodV
    ∧ callSchemaMethod (runDecls ds initState) sid "compact" =
        Except.error JsError.typeError := by
  have hw := wfState_runDecls ds initState wf_initState
  have hc : ((runDecls ds initState).getSchema sid).compact = false :=
    hw.2.2.2.2.2.2.2.2 sid h
  have hown : schemaOwnProp (runDecls ds initState) sid "compact" =
      some (JsValue.boolV false) := by
    rw [schemaOwnProp, if_neg (by decide), if_neg (by decide), if_neg (by decide),
      if_pos rfl, hc]
  refine ⟨hc, hown, ?_, ?_⟩
  · rw [schemaProtoProp, if_pos rfl]
  · rw [callSchemaMethod, schemaGetProp, hown]
    rfl

/-- C9 (witness). -/
theorem C9_witness :
    0 < (runDecls [Decl.schemaDecl "@a/b" SchemaCb.done] initState).schemaStore.length
    ∧ callSchemaMethod (runDecls [Decl.schemaDecl "@a/b" SchemaCb.done] initState) 0
        "compact" = Except.error JsError.typeError := by
  refine ⟨by decide, ?_⟩
  exact (C9_theorem [Decl.schemaDecl "@a/b" SchemaCb.done] 0 (by decide)).2.2.2

/-- C6: a schema declared with a callback that invokes only generated type
methods gets exactly one Field per call, in invocation order, each carrying
the invoked type tag and given name with `required` defaulting to true. -/
theorem C6_theorem (ds : List Decl) (name : String) (calls : List (String × String))
    (_hsup : ∀ c ∈ calls, c.1 ∈ SupportedTypes) :
    ((declSchema name (cbOfCalls calls) (runDecls ds initState)).1.getSchema
        (declSchema name (cbOfCalls calls) (runDecls ds initState)).2).fields =
      calls.map (fun c => { name := c.2, type := c.1, required := true }) := by
  show ((runCb (allocSchema (extractNamespace (runDecls ds initState) name).2.1
      (extractNamespace (runDecls ds initState) name).2.2
      (extractNamespace (runDecls ds initState) name).1).2 (cbOfCalls calls)
      (allocSchema (extractNamespace (runDecls ds initState) name).2.1
        (extractNamespace (runDecls ds initState) name).2.2
        (extractNamespace (runDecls ds initState) name).1).1).getSchema
      (allocSchema (extractNamespace (runDecls ds initState) name).2.1
        (extractNamespace (runDecls ds initState) name).2.2
        (extractNamespace (runDecls ds initState) name).1).2).fields = _
  rw [fields_runCb_calls calls _ _ (by rw [allocSchema_snd, schemaStore_allocSchema]; simp)]
  rw [allocSchema_snd, getSchema_allocSchema, if_pos rfl]
  simp

/-- C6 (witness). -/
theorem C6_witness :
    (∀ c ∈ [("uint", "x"), ("string", "y")], c.1 ∈ SupportedTypes)
    ∧ ((declSchema "@a/b" (cbOfCalls [("uint", "x"), ("string", "y")])
          (runDecls [] initState)).1.getSchema
        (declSchema "@a/b" (cbOfCalls [("uint", "x"), ("string", "y")])
          (runDecls [] initState)).2).fields =
      [{ name := "x", type := "uint", required := true },
       { name := "y", type := "string", required := true }] := by
  refine ⟨by decide, ?_⟩
  exact C6_theorem [] "@a/b" [("uint", "x"), ("string", "y")] (by decide)

/-- C5: within one Registry, the first reference to `@k/...` creates exactly
one Namespace named `k` and registers it in the map, and any later resolution
of any `@k/...` string — after arbitrary further declarations — returns the
same Namespace (same store id) without changing the state. -/
theorem C5_theorem (ds1 ds2 : List Decl) (k n1 n2 : String)
    (h1 : nsKeyOf n1 = some k) (h2 : nsKeyOf n2 = some k)
    (hnew : lookupStr k (runDecls ds1 initState).nsMap = none) :
    (extractNamespace (runDecls ds1 initState) n1).2.1 =
        (runDecls ds1 initState).nsStore.length
    ∧ (extractNamespace (runDecls ds1 initState) n1).1.nsStore.length =
        (runDecls ds1 initState).nsStore.length + 1
    ∧ ((extractNamespace (runDecls ds1 initState) n1).1.getNs
        (extractNamespace (runDecls ds1 initState) n1).2.1).name = k
    ∧ (extractNamespace (runDecls ds1 initState) n1).1.nsMap =
        (runDecls ds1 initState).nsMap ++
          [(k, (extractNamespace (runDecls ds1 initState) n1).2.1)]
    ∧ (extractNamespace
          (runDecls ds2 (extractNamespace (runDecls ds1 initState) n1).1) n2).2.1 =
        (extractNamespace (runDecls ds1 initState) n1).2.1
    ∧ (extractNamespace
          (runDecls ds2 (extractNamespace (runDecls ds1 initState) n1).1) n2).1 =
        runDecls ds2 (extractNamespace (runDecls ds1 initState) n1).1 := by
  have hw := wfState_runDecls ds1 initState wf_initState
  have hA1 : headIsAtSign ((splitSlash n1).headD "") = true ∧
      dropFirstChar ((splitSlash n1).headD "") = k := by
    rw [nsKeyOf] at h1
    by_cases hb : headIsAtSign ((splitSlash n1).headD "")
    · rw [if_pos hb] at h1
      exact ⟨hb, Option.some_inj.mp h1⟩
    · rw [if_neg hb] at h1
      cases h1
  have hA2 : headIsAtSign ((splitSlash n2).headD "") = true ∧
      dropFirstChar ((splitSlash n2).headD "") = k := by
    rw [nsKeyOf] at h2
    by_cases hb : headIsAtSign ((splitSlash n2).headD "")
    · rw [if_pos hb] at h2
      exact ⟨hb, Option.some_inj.mp h2⟩
    · rw [if_neg hb] at h2
      cases h2
  have hnew1 : lookupStr (dropFirstChar ((splitSlash n1).headD ""))
      (runDecls ds1 initState).nsMap = none := by
    rw [hA1.2]
    exact hnew
  rw [extractNamespace_fresh (runDecls ds1 initState) n1 hA1.1 hnew1]
  have hwf1 : WFState { runDecls ds1 initState with
      nsStore := (runDecls ds1 initState).nsStore ++
        [{ name := dropFirstChar ((splitSlash n1).headD ""), schemas := [],
           collections := [], dispatches := [] }],
      nsMap := (runDecls ds1 initState).nsMap ++
        [(dropFirstChar ((splitSlash n1).headD ""), (runDecls ds1 initState).nsStore.length)] } :=
    wf_freshNs (runDecls ds1 initState) _ hw
  obtain ⟨t, hext⟩ := nsMap_extend_runDecls ds2 _ hwf1
  have hlook : lookupStr (dropFirstChar ((splitSlash n2).headD ""))
      (runDecls ds2 { runDecls ds1 initState with
        nsStore := (runDecls ds1 initState).nsStore ++
          [{ name := dropFirstChar ((splitSlash n1).headD ""), schemas := [],
             collections := [], dispatches := [] }],
        nsMap := (runDecls ds1 initState).nsMap ++
          [(dropFirstChar ((splitSlash n1).headD ""),
            (runDecls ds1 initState).nsStore.length)] }).nsMap =
      some (runDecls ds1 initState).nsStore.length := by
    rw [hA2.2, hext]
    show lookupStr k (((runDecls ds1 initState).nsMap ++
      [(dropFirstChar ((splitSlash n1).headD ""),
        (runDecls ds1 initState).nsStore.length)]) ++ t) =
      some (runDecls ds1 initState).nsStore.length
    rw [hA1.2]
    exact lookupStr_append_some k _ t _ (lookupStr_append_hit k _ _ hnew)
  rw [extractNamespace_found _ n2 _ hA2.1 hlook]
  refine ⟨rfl, by simp, ?_, by rw [hA1.2], rfl, rfl⟩
  show ((((runDecls ds1 initState).nsStore ++
      [({ name := dropFirstChar ((splitSlash n1).headD ""), schemas := [],
          collections := [], dispatches := [] } : NamespaceObj)]).getD
      (runDecls ds1 initState).nsStore.length default)).name = k
  rw [getD_append_len]
  exact hA1.2

/-- C5 (witness). -/
theorem C5_witness :
    nsKeyOf "@new/thing" = some "new"
    ∧ nsKeyOf "@new/other" = some "new"
    ∧ lookupStr "new" (runDecls [] initState).nsMap = none
    ∧ (extractNamespace
          (runDecls [] (extractNamespace (runDecls [] initState) "@new/thing").1)
          "@new/other").2.1 =
        (extractNamespace (runDecls [] initState) "@new/thing").2.1 := by
  refine ⟨by decide, by decide, by decide, ?_⟩
  exact (C5_theorem [] [] "new" "@new/thing" "@new/other" (by decide) (by decide)
    (by decide)).2.2.2.2.1

theorem structInline_spec (st : BState) (sid : Nat) (fname : String) (cb : SchemaCb)
    (req : Bool) (hw : WFState st) (h : sid < st.schemaStore.length) :
    ((runOp sid (SchemaOp.structInline fname cb req) st).getSchema
        st.schemaStore.length).name = (st.getSchema sid).name ++ "/" ++ fname
    ∧ ((runOp sid (SchemaOp.structInline fname cb req) st).getSchema
        st.schemaStore.length).nsId = (st.getSchema sid).nsId
    ∧ fqnOf (runOp sid (SchemaOp.structInline fname cb req) st) st.schemaStore.length =
        "@" ++ (st.getNs (st.getSchema sid).nsId).name ++ "/" ++
          ((st.getSchema sid).name ++ "/" ++ fname)
    ∧ ((runOp sid (SchemaOp.structInline fname cb req) st).getSchema sid).fields =
        (st.getSchema sid).fields ++
          [{ name := fname,
             type := fqnOf (runOp sid (SchemaOp.structInline fname cb req) st)
               st.schemaStore.length,
             required := req }]
    ∧ ((runOp sid (SchemaOp.structInline fname cb req) st).getNs
          (st.getSchema sid).nsId).schemas.count st.schemaStore.length = 1 := by
  have hnsid : (st.getSchema sid).nsId < st.nsStore.length := nsId_lt_of_wf st sid hw
  have hrun : runOp sid (SchemaOp.structInline fname cb req) st =
      appendField sid
        { name := fname,
          type := fqnOf (runCb st.schemaStore.length cb
              (allocSchema (st.getSchema sid).nsId
                ((st.getSchema sid).name ++ "/" ++ fname) st).1)
            st.schemaStore.length,
          required := req }
        (runCb st.schemaStore.length cb
          (allocSchema (st.getSchema sid).nsId
            ((st.getSchema sid).name ++ "/" ++ fname) st).1) := rfl
  have hlen1 : (allocSchema (st.getSchema sid).nsId
      ((st.getSchema sid).name ++ "/" ++ fname) st).1.schemaStore.length =
      st.schemaStore.length + 1 := by
    rw [schemaStore_allocSchema]
    simp
  obtain ⟨b1, b2, b3, b4, b5, b6, b7, b8, b9, b10⟩ :=
    frame_runCb st.schemaStore.length cb
      (allocSchema (st.getSchema sid).nsId
        ((st.getSchema sid).name ++ "/" ++ fname) st).1 (by omega)
  have hq1nid : (allocSchema (st.getSchema sid).nsId
      ((st.getSchema sid).name ++ "/" ++ fname) st).1.getSchema st.schemaStore.length =
      { nsId := (st.getSchema sid).nsId, name := (st.getSchema sid).name ++ "/" ++ fname,
        compact := false, fields := [] } := by
    rw [getSchema_allocSchema, if_pos rfl]
  have happNe : (runOp sid (SchemaOp.structInline fname cb req) st).getSchema
      st.schemaStore.length =
      (runCb st.schemaStore.length cb
        (allocSchema (st.getSchema sid).nsId
          ((st.getSchema sid).name ++ "/" ++ fname) st).1).getSchema
        st.schemaStore.length := by
    rw [hrun, getSchema_appendField, if_neg (by omega)]
  have hname2 : ((runOp sid (SchemaOp.structInline fname cb req) st).getSchema
      st.schemaStore.length).name = (st.getSchema sid).name ++ "/" ++ fname := by
    rw [happNe, b10, hq1nid]
  have hnsid2 : ((runOp sid (SchemaOp.structInline fname cb req) st).getSchema
      st.schemaStore.length).nsId = (st.getSchema sid).nsId := by
    rw [happNe, b9, hq1nid]
  have hnsname : ∀ x, ((runOp sid (SchemaOp.structInline fname cb req) st).getNs x).name =
      (st.getNs x).name := by
    intro x
    rw [hrun, getNs_appendField, b4 x, getNs_allocSchema]
    split
    · rename_i hc
      rw [hc.1]
    · rfl
  have hfq : fqnOf (runOp sid (SchemaOp.structInline fname cb req) st)
      st.schemaStore.length =
      "@" ++ (st.getNs (st.getSchema sid).nsId).name ++ "/" ++
        ((st.getSchema sid).name ++ "/" ++ fname) := by
    rw [fqnOf, hname2, hnsid2, hnsname]
  refine ⟨hname2, hnsid2, hfq, ?_, ?_⟩
  · have hsid2 : (runCb st.schemaStore.length cb
        (allocSchema (st.getSchema sid).nsId
          ((st.getSchema sid).name ++ "/" ++ fname) st).1).getSchema sid =
        st.getSchema sid := by
      rw [b8 sid (by omega) (by omega), getSchema_allocSchema, if_neg (by omega)]
    have hfq2 : fqnOf (runCb st.schemaStore.length cb
        (allocSchema (st.getSchema sid).nsId
          ((st.getSchema sid).name ++ "/" ++ fname) st).1) st.schemaStore.length =
        fqnOf (runOp sid (SchemaOp.structInline fname cb req) st)
          st.schemaStore.length := by
      rw [fqnOf, fqnOf, happNe]
      rfl
    have hout : (runOp sid (SchemaOp.structInline fname cb req) st).getSchema sid =
        { st.getSchema sid with
            fields := (st.getSchema sid).fields ++
              [{ name := fname,
                 type := fqnOf (runCb st.schemaStore.length cb
                     (allocSchema (st.getSchema sid).nsId
                       ((st.getSchema sid).name ++ "/" ++ fname) st).1)
                   st.schemaStore.length,
                 required := req }] } := by
      rw [hrun, getSchema_appendField, if_pos ⟨rfl, by omega⟩, hsid2]
    rw [hout]
    show (st.getSchema sid).fields ++
        [{ name := fname,
           type := fqnOf (runCb st.schemaStore.length cb
               (allocSchema (st.getSchema sid).nsId
                 ((st.getSchema sid).name ++ "/" ++ fname) st).1)
             st.schemaStore.length,
           required := req }] = _
    rw [hfq2]
  · have hw2 : WFState (runOp sid (SchemaOp.structInline fname cb req) st) :=
      wf_runOp sid _ st hw
    obtain ⟨w1, w2, w3, w4, w5, w6, w7, w8, w9⟩ := hw2
    obtain ⟨a1, a2, a3, a4, a5, a6, a7, a8, a9, a10⟩ :=
      frame_runOp sid (SchemaOp.structInline fname cb req) st h
    have hlt1 : (st.getSchema sid).nsId <
        (runOp sid (SchemaOp.structInline fname cb req) st).nsStore.length := by
      omega
    have hlt2 : st.schemaStore.length <
        (runOp sid (SchemaOp.structInline fname cb req) st).schemaStore.length := by
      have : st.schemaStore.length + 1 ≤
          (runOp sid (SchemaOp.structInline fname cb req) st).schemaStore.length := by
        rw [hrun, schemaStore_length_appendField]
        omega
      omega
    have hcount := w6 _ hlt1 _ hlt2
    rw [hcount, if_pos hnsid2]
    have hcm0 : collMult (runOp sid (SchemaOp.structInline fname cb req) st)
        st.schemaStore.length = 0 := by
      rw [collMult_eq_of_collectionStore_eq st _ a2]
      refine multOf_eq_zero _ _ ?_
      intro c hc
      have := hw.2.2.1 c hc
      omega
    rw [hcm0]

/-- C7: `struct(fieldName, callback)` on a schema named `P` in namespace `ns`
constructs a nested Schema in the same namespace with name `P + "/" +
fieldName` and FQN `"@" + ns + "/" + P + "/" + fieldName`, runs the callback
against it, and appends to the parent a Field whose type is that nested
Schema's FQN; the nested schema is registered once in the namespace. -/
theorem C7_theorem (ds : List Decl) (sid : Nat) (fname : String) (cb : SchemaCb)
    (req : Bool) (h : sid < (runDecls ds initState).schemaStore.length) :
    ((runOp sid (SchemaOp.structInline fname cb req) (runDecls ds initState)).getSchema
        (runDecls ds initState).schemaStore.length).name =
      ((runDecls ds initState).getSchema sid).name ++ "/" ++ fname
    ∧ ((runOp sid (SchemaOp.structInline fname cb req) (runDecls ds initState)).getSchema
        (runDecls ds initState).schemaStore.length).nsId =
      ((runDecls ds initState).getSchema sid).nsId
    ∧ fqnOf (runOp sid (SchemaOp.structInline fname cb req) (runDecls ds initState))
        (runDecls ds initState).schemaStore.length =
      "@" ++ ((runDecls ds initState).getNs
          ((runDecls ds initState).getSchema sid).nsId).name ++ "/" ++
        (((runDecls ds initState).getSchema sid).name ++ "/" ++ fname)
    ∧ ((runOp sid (SchemaOp.structInline fname cb req)
          (runDecls ds initState)).getSchema sid).fields =
      ((runDecls ds initState).getSchema sid).fields ++
        [{ name := fname,
           type := fqnOf (runOp sid (SchemaOp.structInline fname cb req)
             (runDecls ds initState)) (runDecls ds initState).schemaStore.length,
           required := req }]
    ∧ ((runOp sid (SchemaOp.structInline fname cb req) (runDecls ds initState)).getNs
          ((runDecls ds initState).getSchema sid).nsId).schemas.count
        (runDecls ds initState).schemaStore.length = 1 :=
  structInline_spec (runDecls ds initState) sid fname cb req
    (wfState_runDecls ds initState wf_initState) h

/-- C7 (witness). -/
theorem C7_witness :
    0 < (runDecls [Decl.schemaDecl "@hello/users" SchemaCb.done] initState).schemaStore.length
    ∧ fqnOf (runOp 0 (SchemaOp.structInline "address"
          (SchemaCb.seq (SchemaOp.typeField "string" "city" true) SchemaCb.done) true)
        (runDecls [Decl.schemaDecl "@hello/users" SchemaCb.done] initState))
        (runDecls [Decl.schemaDecl "@hello/users" SchemaCb.done] initState).schemaStore.length =
      "@" ++ ((runDecls [Decl.schemaDecl "@hello/users" SchemaCb.done]
            initState).getNs
          ((runDecls [Decl.schemaDecl "@hello/users" SchemaCb.done]
            initState).getSchema 0).nsId).name ++ "/" ++
        (((runDecls [Decl.schemaDecl "@hello/users" SchemaCb.done]
            initState).getSchema 0).name ++ "/" ++ "address") := by
  refine ⟨by decide, ?_⟩
  exact (C7_theorem [Decl.schemaDecl "@hello/users" SchemaCb.done] 0 "address"
    (SchemaCb.seq (SchemaOp.typeField "string" "city" true) SchemaCb.done) true
    (by decide)).2.2.1

theorem declCollection_spec (st : BState) (name : String) (ops : List CollOp)
    (hw : WFState st) :
    (((declCollection name ops st).1.getColl (declCollection name ops st).2).schemaId =
        (extractNamespace st name).1.schemaStore.length)
    ∧ ((declCollection name ops st).1.getColl (declCollection name ops st).2).name =
        (extractNamespace st name).2.2
    ∧ ((declCollection name ops st).1.getSchema
        (extractNamespace st name).1.schemaStore.length).name =
        (extractNamespace st name).2.2
    ∧ ((declCollection name ops st).1.getSchema
        (extractNamespace st name).1.schemaStore.length).nsId =
        (extractNamespace st name).2.1
    ∧ collMult (declCollection name ops st).1
        (extractNamespace st name).1.schemaStore.length = 1
    ∧ fqnOf (declCollection name ops st).1
        (extractNamespace st name).1.schemaStore.length =
      "@" ++ ((extractNamespace st name).1.getNs (extractNamespace st name).2.1).name
        ++ "/" ++ (extractNamespace st name).2.2 := by
  obtain ⟨hw1, hlt, _, _, _, _, _⟩ := extract_spec st name hw
  have hsidX : ((allocCollection (extractNamespace st name).2.1 (extractNamespace st name).2.2
      (extractNamespace st name).1).1.getColl
        (allocCollection (extractNamespace st name).2.1 (extractNamespace st name).2.2
          (extractNamespace st name).1).2).schemaId =
      (extractNamespace st name).1.schemaStore.length := by
    rw [allocCollection_snd, getColl_allocCollection, if_pos rfl]
  have hd : declCollection name ops st =
      (runCollOps (allocCollection (extractNamespace st name).2.1
          (extractNamespace st name).2.2 (extractNamespace st name).1).2
        ((allocCollection (extractNamespace st name).2.1 (extractNamespace st name).2.2
            (extractNamespace st name).1).1.getColl
          (allocCollection (extractNamespace st name).2.1 (extractNamespace st name).2.2
            (extractNamespace st name).1).2).schemaId
        ops
        (allocCollection (extractNamespace st name).2.1 (extractNamespace st name).2.2
          (extractNamespace st name).1).1,
       (allocCollection (extractNamespace st name).2.1 (extractNamespace st name).2.2
          (extractNamespace st name).1).2) := rfl
  obtain ⟨b1, b2, b3, b4, b5, b6, b7, b8⟩ :=
    collframe_runCollOps (allocCollection (extractNamespace st name).2.1
        (extractNamespace st name).2.2 (extractNamespace st name).1).2
      ((allocCollection (extractNamespace st name).2.1 (extractNamespace st name).2.2
          (extractNamespace st name).1).1.getColl
        (allocCollection (extractNamespace st name).2.1 (extractNamespace st name).2.2
          (extractNamespace st name).1).2).schemaId
      ops
      (allocCollection (extractNamespace st name).2.1 (extractNamespace st name).2.2
        (extractNamespace st name).1).1
      (by rw [hsidX, schemaStore_allocCollection]; simp)
  have hnew : (allocCollection (extractNamespace st name).2.1 (extractNamespace st name).2.2
      (extractNamespace st name).1).1.getSchema
        (extractNamespace st name).1.schemaStore.length =
      { nsId := (extractNamespace st name).2.1, name := (extractNamespace st name).2.2,
        compact := false, fields := [] } := by
    rw [getSchema_allocCollection, if_pos rfl]
  have hcm1 : collMult (allocCollection (extractNamespace st name).2.1
      (extractNamespace st name).2.2 (extractNamespace st name).1).1
      (extractNamespace st name).1.schemaStore.length = 1 := by
    rw [collMult, collectionStore_allocCollection, multOf_append, multOf_cons, multOf_nil]
    have hz : multOf (extractNamespace st name).1.collectionStore
        (extractNamespace st name).1.schemaStore.length = 0 := by
      refine multOf_eq_zero _ _ ?_
      intro c hc
      have := hw1.2.2.1 c hc
      omega
    rw [hz]
    simp
  rw [hd]
  refine ⟨by rw [b3, hsidX], ?_, ?_, ?_, ?_, ?_⟩
  · rw [b4, allocCollection_snd, getColl_allocCollection, if_pos rfl]
  · rw [← hsidX, b7, hsidX, hnew]
  · rw [← hsidX, b6, hsidX, hnew]
  · rw [b2, hcm1]
  · rw [fqnOf, ← hsidX, b6, b7, b5, hsidX, hnew]
    rw [getNs_allocCollection]
    rw [if_pos ⟨rfl, hlt⟩]

/-- C2: `declCollection("@ns/x", cb)` creates exactly one paired
CollectionSchema, freshly allocated 1:1 with the Collection (no other
collection shares it), carrying the same namespace and local name, and its
FQN equals the collection's own FQN `"@ns/x"`. -/
theorem C2_theorem (ds : List Decl) (name : String) (ops : List CollOp)
    (hname : name = "@" ++ ((extractNamespace (runDecls ds initState) name).1.getNs
        (extractNamespace (runDecls ds initState) name).2.1).name ++ "/" ++
        (extractNamespace (runDecls ds initState) name).2.2) :
    (((declCollection name ops (runDecls ds initState)).1.getColl
        (declCollection name ops (runDecls ds initState)).2).schemaId =
      (extractNamespace (runDecls ds initState) name).1.schemaStore.length)
    ∧ ((declCollection name ops (runDecls ds initState)).1.getColl
        (declCollection name ops (runDecls ds initState)).2).name =
      (extractNamespace (runDecls ds initState) name).2.2
    ∧ ((declCollection name ops (runDecls ds initState)).1.getSchema
        (extractNamespace (runDecls ds initState) name).1.schemaStore.length).name =
      (extractNamespace (runDecls ds initState) name).2.2
    ∧ ((declCollection name ops (runDecls ds initState)).1.getSchema
        (extractNamespace (runDecls ds initState) name).1.schemaStore.length).nsId =
      (extractNamespace (runDecls ds initState) name).2.1
    ∧ collMult (declCollection name ops (runDecls ds initState)).1
        (extractNamespace (runDecls ds initState) name).1.schemaStore.length = 1
    ∧ fqnOf (declCollection name ops (runDecls ds initState)).1
        (extractNamespace (runDecls ds initState) name).1.schemaStore.length = name := by
  have hs := declCollection_spec (runDecls ds initState) name ops
    (wfState_runDecls ds initState wf_initState)
  exact ⟨hs.1, hs.2.1, hs.2.2.1, hs.2.2.2.1, hs.2.2.2.2.1, by rw [hs.2.2.2.2.2, ← hname]⟩

/-- C2 (witness). -/
theorem C2_witness :
    "@ns/x" = "@" ++ ((extractNamespace (runDecls [] initState) "@ns/x").1.getNs
        (extractNamespace (runDecls [] initState) "@ns/x").2.1).name ++ "/" ++
        (extractNamespace (runDecls [] initState) "@ns/x").2.2
    ∧ fqnOf (declCollection "@ns/x" [] (runDecls [] initState)).1
        (extractNamespace (runDecls [] initState) "@ns/x").1.schemaStore.length =
      "@ns/x" := by
  refine ⟨by decide, ?_⟩
  exact (C2_theorem [] "@ns/x" [] (by decide)).2.2.2.2.2
